import Mathlib

/-!
Verification development for the CHL-MZI repository (package `vivilux`).

The repository holds two generations of the simulation core:

* `src/vivilux/meshes.py` — the newer `Mesh` class with a bounded
  ("sigmoidal") weight representation (`matrix`) over an unbounded linear
  weight store (`linMatrix`), soft-bounded updates, clipping, and
  weight-balance homeostasis, plus the read-only `TransposeMesh`.
  Embedded below in namespace `Meshes`.

* `src/vivilux/__init__.py` — the original `Net`/`Layer`/`Mesh`/`fbMesh`
  classes with the two-phase (predict/observe) settling loop and the
  epoch-level `Net.Learn` driver.  Embedded below in namespace `Vx`.

Python floats are modelled as real numbers, `np.power` as `Real.rpow`,
1-D numpy arrays as `List ℝ`, and square numpy matrices either as
`Matrix (Fin n) (Fin n) ℝ` (new code, fixed size) or as total functions
`ℕ → ℕ → ℝ` together with a `size` field (old code).  Methods that can
raise (or that crash their caller by returning `None`) are modelled as
`Option`-valued state transformers.
-/

namespace Meshes

/-- `Mesh.sigmoid` (meshes.py line 302-303):
`1 / (1 + np.power(self.Off*(1-data)/data, self.Gain))`,
with `self.Off`, `self.Gain` passed explicitly. -/
noncomputable def sigmoid (Off Gain x : ℝ) : ℝ :=
  1 / (1 + (Off * (1 - x) / x) ^ Gain)

/-- `Mesh.invSigmoid` (meshes.py line 318-319):
`1 / (1 + np.power((1/self.Off)*(1-data)/data, (1/self.Gain)))`. -/
noncomputable def invSigmoid (Off Gain x : ℝ) : ℝ :=
  1 / (1 + ((1 / Off) * (1 - x) / x) ^ (1 / Gain))

/-- One entry of `Mesh.SigMatrix` (meshes.py lines 285-300): entries with
`linMatrix <= 0` map to `0`, entries with `linMatrix >= 1` map to `1`,
interior entries map through `sigmoid`. -/
noncomputable def SigEntry (Off Gain x : ℝ) : ℝ :=
  if x ≤ 0 then 0 else if 1 ≤ x then 1 else sigmoid Off Gain x

/-- One entry of `Mesh.ClipLinMatrix` (meshes.py lines 189-195): linear
weights below `0` are set to `0`, above `1` are set to `1`. -/
noncomputable def clipEntry (x : ℝ) : ℝ :=
  if x < 0 then 0 else if 1 < x then 1 else x

/-- State of a `Mesh` object (meshes.py `Mesh.__init__`, lines 20-82).
`matrix` / `linMatrix` are the bounded and linear weight stores; the `wb*`
fields are the weight-balance parameters and variables.  The sending-layer
reference, XCAL process and naming counter are outside the weight model. -/
structure Mesh (n : ℕ) where
  Off : ℝ
  Gain : ℝ
  wbOn : Bool
  wbAvgThr : ℝ
  wbHiThr : ℝ
  wbHiGain : ℝ
  wbLoThr : ℝ
  wbLoGain : ℝ
  wbInc : ℝ
  wbDec : ℝ
  WtBalInterval : ℕ
  softBound : Bool
  WtBalCtr : ℕ
  wbFact : ℝ
  matrix : Matrix (Fin n) (Fin n) ℝ
  linMatrix : Matrix (Fin n) (Fin n) ℝ
  Gscale : ℝ
  AbsScale : ℝ
  RelScale : ℝ
  trainable : Bool

/-- `Mesh.get` (meshes.py lines 104-105): `self.Gscale * self.matrix`. -/
noncomputable def Mesh.get {n : ℕ} (m : Mesh n) : Matrix (Fin n) (Fin n) ℝ :=
  m.Gscale • m.matrix

/-- `Mesh.SigMatrix` (meshes.py lines 285-300): recompute every entry of
`matrix` from `linMatrix` through the three masks. -/
noncomputable def Mesh.SigMatrix {n : ℕ} (m : Mesh n) : Mesh n :=
  { m with matrix := Matrix.of fun i j => SigEntry m.Off m.Gain (m.linMatrix i j) }

/-- `Mesh.ClipLinMatrix` (meshes.py lines 189-195). -/
noncomputable def Mesh.ClipLinMatrix {n : ℕ} (m : Mesh n) : Mesh n :=
  { m with linMatrix := Matrix.of fun i j => clipEntry (m.linMatrix i j) }

/-- `Mesh.InvSigMatrix` (meshes.py lines 305-316): clamp `matrix` to
`[0,1]` and recompute `linMatrix` on the interior mask through
`invSigmoid`; entries of `linMatrix` under the two boundary masks are left
as they were. -/
noncomputable def Mesh.InvSigMatrix {n : ℕ} (m : Mesh n) : Mesh n :=
  { m with
    matrix := Matrix.of fun i j =>
      if m.matrix i j ≤ 0 then 0 else if 1 ≤ m.matrix i j then 1 else m.matrix i j,
    linMatrix := Matrix.of fun i j =>
      if m.matrix i j ≤ 0 then m.linMatrix i j
      else if 1 ≤ m.matrix i j then m.linMatrix i j
      else invSigmoid m.Off m.Gain (m.matrix i j) }

/-- One entry of `Mesh.SoftBound` (meshes.py lines 171-187): positive
deltas are scaled by `wbInc * (1 - linMatrix)`, non-positive deltas by
`wbDec * linMatrix` (without the linear factors when `softBound` is off). -/
noncomputable def SoftBoundEntry {n : ℕ} (m : Mesh n) (lin d : ℝ) : ℝ :=
  if 0 < d then
    (if m.softBound then d * (m.wbInc * (1 - lin)) else d * m.wbInc)
  else
    (if m.softBound then d * (m.wbDec * lin) else d * m.wbDec)

/-- `np.mean` of a square matrix, used by `Mesh.WtBalance`. -/
noncomputable def matMean {n : ℕ} (M : Matrix (Fin n) (Fin n) ℝ) : ℝ :=
  (∑ i, ∑ j, M i j) / (n * n)

/-- `Mesh.WtBalance` (meshes.py lines 149-167).  The counter is
incremented on every call; once it reaches `self.WtBalInterval` it is
reset and the balance step runs.  The source line
`if not self.WtBalance: return` tests the bound method object itself,
which is always truthy, so execution always continues past it. -/
noncomputable def Mesh.WtBalance {n : ℕ} (m : Mesh n) : Mesh n :=
  let ctr := m.WtBalCtr + 1
  if m.WtBalInterval ≤ ctr then
    let m1 : Mesh n := { m with WtBalCtr := 0 }
    let wbAvg := matMean m1.matrix
    if wbAvg < m1.wbLoThr then
      let wbAvg2 := if wbAvg < m1.wbAvgThr then m1.wbAvgThr else wbAvg
      let fact := m1.wbLoGain * (m1.wbLoThr - wbAvg2)
      { m1 with wbFact := fact, wbDec := 1 / (1 + fact), wbInc := 2 - 1 / (1 + fact) }
    else if m1.wbHiThr < wbAvg then
      let fact := m1.wbHiGain * (wbAvg - m1.wbHiThr)
      { m1 with wbFact := fact, wbInc := 1 / (1 + fact), wbDec := 2 - 1 / (1 + fact) }
    else m1
  else { m with WtBalCtr := ctr }

/-- `Mesh.Update` (meshes.py lines 197-210).  The delta produced by
`self.XCAL.GetDeltas()` is external input; it has shape `dm × dn` and is
soft-bounded, added onto the `[:dm, :dn]` slice of `linMatrix`, after
which the linear weights are clipped, the bounded matrix recomputed, and
weight balance run. -/
noncomputable def Mesh.Update {n : ℕ} (m : Mesh n) (dm dn : ℕ) (delta : ℕ → ℕ → ℝ) :
    Mesh n :=
  let lin1 : Matrix (Fin n) (Fin n) ℝ := Matrix.of fun i j =>
    if i.val < dm ∧ j.val < dn then
      m.linMatrix i j + SoftBoundEntry m (m.linMatrix i j) (delta i.val j.val)
    else m.linMatrix i j
  Mesh.WtBalance (Mesh.SigMatrix (Mesh.ClipLinMatrix { m with linMatrix := lin1 }))

/-- `Mesh.__init__` (meshes.py lines 20-82), restricted to the weight
state: the freshly drawn random `matrix` is passed in as `M0`; the source
sets `linMatrix = np.copy(matrix)` and then calls `InvSigMatrix()`.
Note line 51: the attribute is assigned `self.WtBalInterval = 0`, ignoring
the `WtBalInterval` constructor parameter (default `10`). -/
noncomputable def Mesh.init (n : ℕ) (Off Gain : ℝ) (wbOn : Bool)
    (wbAvgThr wbHiThr wbHiGain wbLoThr wbLoGain wbInc wbDec : ℝ)
    (WtBalIntervalParam : ℕ) (softBound : Bool)
    (AbsScale RelScale : ℝ) (M0 : Matrix (Fin n) (Fin n) ℝ) : Mesh n :=
  Mesh.InvSigMatrix
    { Off := Off, Gain := Gain, wbOn := wbOn,
      wbAvgThr := wbAvgThr, wbHiThr := wbHiThr, wbHiGain := wbHiGain,
      wbLoThr := wbLoThr, wbLoGain := wbLoGain,
      wbInc := wbInc, wbDec := wbDec,
      WtBalInterval := 0,
      softBound := softBound, WtBalCtr := 0, wbFact := 0,
      matrix := M0, linMatrix := M0,
      Gscale := 1, AbsScale := AbsScale, RelScale := RelScale,
      trainable := true }

/-- `Mesh.applyTo` (meshes.py lines 135-141): `self.get() @ data` flattened,
with a `ValueError` on dimension mismatch caught; in that case a diagnostic
is printed and the method falls off the end, returning `None`.  Modelled as
a state transformer returning the optional product, a flag recording
whether the diagnostic was emitted, and the (unchanged) mesh state. -/
noncomputable def Mesh.applyTo {n : ℕ} (m : Mesh n) (data : List ℝ) :
    Option (List ℝ) × Bool × Mesh n :=
  if data.length = n then
    (some (List.ofFn fun i : Fin n => ∑ j : Fin n, Mesh.get m i j * data.getD j.val 0),
     false, m)
  else (none, true, m)

/-- State of a `TransposeMesh` (meshes.py lines 328-358): it wraps a
target `Mesh` (`self.mesh`) and owns no weight storage of its own that
its `get`/`Update`/`set` ever read. -/
structure TransposeMesh (n : ℕ) where
  mesh : Mesh n

/-- `TransposeMesh.get` (meshes.py lines 347-350):
`self.mesh.Gscale * self.mesh.get().T`. -/
noncomputable def TransposeMesh.get {n : ℕ} (t : TransposeMesh n) :
    Matrix (Fin n) (Fin n) ℝ :=
  t.mesh.Gscale • (Mesh.get t.mesh).transpose

/-- `TransposeMesh.Update` (meshes.py lines 355-358): `return None` —
no state is touched. -/
def TransposeMesh.Update {n : ℕ} (t : TransposeMesh n) : TransposeMesh n := t

/-- `TransposeMesh.set` (meshes.py lines 344-345): unconditionally raises
`Exception("Feedback mesh has no 'set' method.")`. -/
def TransposeMesh.set {n : ℕ} (t : TransposeMesh n) :
    Except String (TransposeMesh n) :=
  Except.error "Feedback mesh has no set method."

end Meshes

namespace Vx

/-- Vectors: 1-D numpy arrays of floats. -/
abbrev Vec := List ℝ

/-- A weight-delta matrix as produced by a learning rule. -/
abbrev Delta := ℕ → ℕ → ℝ

/-- `DELTA_TIME` (vivilux/__init__.py line 27). -/
noncomputable def DELTA_TIME : ℝ := 1 / 10

/-- State of a `Mesh` object of vivilux/__init__.py (lines 161-203) and of
its `fbMesh` subclass (lines 205-227).  Object references are modelled as
indices into the owning net's layer list: `inLayer` is the sending layer;
for an `fbMesh`, `isFb` is set and `fbLayer` is the layer whose first mesh
is the wrapped target mesh (`self.mesh`), matching how `FFFB.__init__`
builds feedback meshes (`fbMesh(nextLayer.meshes[0], nextLayer)`). -/
structure Mesh where
  size : ℕ
  matrix : ℕ → ℕ → ℝ
  rate : ℝ
  inLayer : ℕ
  isFb : Bool
  fbLayer : ℕ

instance : Inhabited Mesh :=
  ⟨{ size := 0, matrix := fun _ _ => 0, rate := 0, inLayer := 0,
     isFb := false, fbLayer := 0 }⟩

/-- State of a `Layer` object (vivilux/__init__.py lines 229-310).
`act` is the pluggable activation capability; `rule` is the layer's
learning-rule reference, modelled as an identifier resolved through a
rule table passed to the learning entry points. -/
structure Layer where
  preLin : Vec
  preAct : Vec
  obsLin : Vec
  obsAct : Vec
  act : Vec → Vec
  rule : ℕ
  meshes : List Mesh
  isInput : Bool
  freeze : Bool

instance : Inhabited Layer :=
  ⟨{ preLin := [], preAct := [], obsLin := [], obsAct := [],
     act := fun v => v, rule := 0, meshes := [], isInput := false,
     freeze := false }⟩

/-- A learning-rule table: `rules id sendingLayer receivingLayer` is the
delta matrix the rule `id` produces, mirroring
`self.rule(inLayer, self)` in `Layer.Learn`. -/
abbrev RuleT := ℕ → Layer → Layer → Delta

/-- State of a `Net` object (vivilux/__init__.py lines 29-159): the
ordered layer list and the metric capability. -/
structure Net where
  layers : List Layer
  metric : List Vec → List Vec → ℝ

/-- In-place numpy assignment `dst[:] = src` (and `dst[i][:] = src`):
succeeds when the lengths agree, broadcasts a single element, and raises
otherwise. -/
noncomputable def npWrite (dst src : Vec) : Option Vec :=
  if src.length = dst.length then some src
  else if src.length = 1 then some (List.replicate dst.length src.headI)
  else none

/-- In-place numpy addition `a += b`: elementwise when the lengths agree,
broadcasting a single element on the right, raising otherwise. -/
noncomputable def npAdd (a b : Vec) : Option Vec :=
  if b.length = a.length then some (List.zipWith (fun x y => x + y) a b)
  else if b.length = 1 then some (a.map fun x => x + b.headI)
  else none

/-- `Mesh.apply` (vivilux/__init__.py lines 181-187): `self.matrix @ data`.
A dimension mismatch raises `ValueError`, which the method catches and
logs, falling through to return `None`. -/
noncomputable def Mesh.applyV (m : Mesh) (data : Vec) : Option Vec :=
  if data.length = m.size then
    some (List.ofFn fun i : Fin m.size =>
      ∑ j ∈ Finset.range m.size, m.matrix i.val j * data.getD j 0)
  else none

/-- `fbMesh.apply` (vivilux/__init__.py lines 219-224) applies the
transpose of the wrapped mesh's matrix; `Mesh.apply` applies the mesh's
own matrix.  `ls` is the owning net's layer list, used to dereference the
wrapped target mesh (`self.mesh`, the first mesh of layer `fbLayer`). -/
noncomputable def Mesh.applyInNet (ls : List Layer) (m : Mesh) (data : Vec) : Option Vec :=
  if m.isFb then
    let t := ((ls.getD m.fbLayer default).meshes).headI
    if data.length = t.size then
      some (List.ofFn fun i : Fin t.size =>
        ∑ j ∈ Finset.range t.size, t.matrix j i.val * data.getD j 0)
    else none
  else Mesh.applyV m data

/-- `Mesh.Predict` (vivilux/__init__.py lines 188-190): apply the mesh to
the sending layer's predict-phase activation. -/
noncomputable def Mesh.PredictData (ls : List Layer) (m : Mesh) : Option Vec :=
  Mesh.applyInNet ls m (ls.getD m.inLayer default).preAct

/-- `Mesh.Observe` (vivilux/__init__.py lines 192-194): apply the mesh to
the sending layer's observe-phase activation. -/
noncomputable def Mesh.ObserveData (ls : List Layer) (m : Mesh) : Option Vec :=
  Mesh.applyInNet ls m (ls.getD m.inLayer default).obsAct

/-- `Mesh.Update` (vivilux/__init__.py lines 196-197):
`self.matrix += self.rate*delta`; `fbMesh.Update` (lines 226-227) is a
no-op returning `None`. -/
def Mesh.Update (m : Mesh) (delta : Delta) : Mesh :=
  if m.isFb then m
  else { m with matrix := fun i j => m.matrix i j + m.rate * delta i j }

/-- `Mesh.set` (vivilux/__init__.py lines 175-176) overwrites the matrix;
`fbMesh.set` (lines 213-214) unconditionally raises. -/
def Mesh.set (m : Mesh) (M : ℕ → ℕ → ℝ) : Except String Mesh :=
  if m.isFb then Except.error "Feedback mesh has no set method."
  else Except.ok { m with matrix := M }

/-- The mesh-contribution loop of `Layer.Predict` (vivilux/__init__.py
lines 262-264): `self.preLin += DELTA_TIME * mesh.Predict()[:len(self)]**2`
for each owned mesh in order.  A mesh whose `apply` returned `None`
crashes the caller (`None[:k]` raises `TypeError`), modelled by `none`. -/
noncomputable def predictAccum (ls : List Layer) (selfLen : ℕ) :
    List Mesh → Vec → Option Vec
  | [], acc => some acc
  | m :: ms, acc =>
    match Mesh.PredictData ls m with
    | none => none
    | some r =>
      match npAdd acc ((r.take selfLen).map fun x => DELTA_TIME * x ^ 2) with
      | none => none
      | some acc' => predictAccum ls selfLen ms acc'

/-- The mesh-contribution loop of `Layer.Observe` (vivilux/__init__.py
lines 269-271). -/
noncomputable def observeAccum (ls : List Layer) (selfLen : ℕ) :
    List Mesh → Vec → Option Vec
  | [], acc => some acc
  | m :: ms, acc =>
    match Mesh.ObserveData ls m with
    | none => none
    | some r =>
      match npAdd acc ((r.take selfLen).map fun x => DELTA_TIME * x ^ 2) with
      | none => none
      | some acc' => observeAccum ls selfLen ms acc'

/-- `Layer.Predict` (vivilux/__init__.py lines 261-266): decay `preLin`,
accumulate squared mesh contributions, then `preAct = act(preLin)`.
`len(self)` is `len(self.preAct)` (line 302-303), constant during the
loop because `preAct` is only reassigned at the end. -/
noncomputable def Layer.PredictL (ls : List Layer) (l : Layer) : Option Layer :=
  match predictAccum ls l.preAct.length l.meshes
      (l.preLin.map fun x => x - DELTA_TIME * x) with
  | none => none
  | some pl => some { l with preLin := pl, preAct := l.act pl }

/-- `Layer.Observe` (vivilux/__init__.py lines 268-273). -/
noncomputable def Layer.ObserveL (ls : List Layer) (l : Layer) : Option Layer :=
  match observeAccum ls l.preAct.length l.meshes
      (l.obsLin.map fun x => x - DELTA_TIME * x) with
  | none => none
  | some ol => some { l with obsLin := ol, obsAct := l.act ol }

/-- `Layer.ClampPre` (vivilux/__init__.py lines 275-277):
`self.preLin = data[:len(self)]; self.preAct = data[:len(self)]`, where
`len(self)` is the length of the (old) `preAct`. -/
def Layer.ClampPre (l : Layer) (data : Vec) : Layer :=
  { l with preLin := data.take l.preAct.length,
           preAct := data.take l.preAct.length }

/-- `Layer.ClampObs` (vivilux/__init__.py lines 279-281); `len(self)` is
still the length of `preAct`. -/
def Layer.ClampObs (l : Layer) (data : Vec) : Layer :=
  { l with obsLin := data.take l.preAct.length,
           obsAct := data.take l.preAct.length }

/-- `Layer.Learn` (vivilux/__init__.py lines 283-288): no-op when
`isInput` or `freeze`; otherwise ask the rule for a delta given the first
mesh's sending layer and `self`, and call `Update` on that first mesh
only.  `self.meshes[0]` on an empty mesh list raises (`none`). -/
def Layer.LearnL (rules : RuleT) (ls : List Layer) (l : Layer) : Option Layer :=
  if l.isInput || l.freeze then some l
  else
    match l.meshes with
    | [] => none
    | m :: rest =>
      some { l with
        meshes := Mesh.Update m (rules l.rule (ls.getD m.inLayer default) l) :: rest }

/-- `Layer.resetActivity` (vivilux/__init__.py lines 293-300): all four
vectors become zero vectors of length `len(self)`. -/
def Layer.resetActivity (l : Layer) : Layer :=
  { l with preLin := List.replicate l.preAct.length 0,
           preAct := List.replicate l.preAct.length 0,
           obsLin := List.replicate l.preAct.length 0,
           obsAct := List.replicate l.preAct.length 0 }

/-- `Net.resetActivity` (vivilux/__init__.py lines 141-143). -/
def Net.resetActivity (net : Net) : Net :=
  { net with layers := net.layers.map Layer.resetActivity }

/-- Run an optional per-index layer transformer sequentially over a list
of indices, the in-place semantics of `for layer in slice: layer.f()`. -/
noncomputable def seqOption (f : List Layer → ℕ → Option (List Layer)) :
    List Layer → List ℕ → Option (List Layer)
  | ls, [] => some ls
  | ls, k :: ks =>
    match f ls k with
    | none => none
    | some ls' => seqOption f ls' ks

/-- One in-place `layer.Predict()` at index `k`. -/
noncomputable def predictAt (ls : List Layer) (k : ℕ) : Option (List Layer) :=
  match ls[k]? with
  | none => none
  | some l =>
    match Layer.PredictL ls l with
    | none => none
    | some l' => some (ls.set k l')

/-- One in-place `layer.Observe()` at index `k`. -/
noncomputable def observeAt (ls : List Layer) (k : ℕ) : Option (List Layer) :=
  match ls[k]? with
  | none => none
  | some l =>
    match Layer.ObserveL ls l with
    | none => none
    | some l' => some (ls.set k l')

/-- One in-place `layer.Learn()` at index `k`. -/
def learnAt (rules : RuleT) (ls : List Layer) (k : ℕ) : Option (List Layer) :=
  match ls[k]? with
  | none => none
  | some l =>
    match Layer.LearnL rules ls l with
    | none => none
    | some l' => some (ls.set k l')

/-- Indices of the slice `self.layers[1:-1]`. -/
def middleIdx (len : ℕ) : List ℕ := List.range' 1 (len - 2)

/-- Indices of the slice `self.layers[1:]`. -/
def tailIdx (len : ℕ) : List ℕ := List.range' 1 (len - 1)

/-- `Net.Predict` (vivilux/__init__.py lines 44-56): clamp layer 0, run
`Predict` on the interior layers in order, then on the last layer, and
return its activation. -/
noncomputable def Net.Predict (net : Net) (data : Vec) : Option (Vec × Net) :=
  match net.layers with
  | [] => none
  | l0 :: _ =>
    let ls0 := net.layers.set 0 (Layer.ClampPre l0 data)
    match seqOption predictAt ls0 (middleIdx ls0.length) with
    | none => none
    | some ls1 =>
      let k := ls1.length - 1
      match ls1[k]? with
      | none => none
      | some lLast =>
        match Layer.PredictL ls1 lLast with
        | none => none
        | some l' => some (l'.preAct, { net with layers := ls1.set k l' })

/-- `Net.Observe` (vivilux/__init__.py lines 58-68): clamp layer 0 and the
last layer with `ClampObs`, then run `Observe` on the interior layers. -/
noncomputable def Net.Observe (net : Net) (inD outD : Vec) : Option Net :=
  match net.layers with
  | [] => none
  | l0 :: _ =>
    let ls0 := net.layers.set 0 (Layer.ClampObs l0 inD)
    let k := ls0.length - 1
    match ls0[k]? with
    | none => none
    | some lk =>
      let ls1 := ls0.set k (Layer.ClampObs lk outD)
      match seqOption observeAt ls1 (middleIdx ls1.length) with
      | none => none
      | some ls2 => some { net with layers := ls2 }

/-- `for time in range(nT): result = self.Predict(datum)` with the
last-result binding threaded through (`none` = still unbound). -/
noncomputable def PredictN (d : Vec) : ℕ → Net × Option Vec → Option (Net × Option Vec)
  | 0, s => some s
  | Nat.succ k, s =>
    match Net.Predict s.1 d with
    | none => none
    | some (out, net1) => PredictN d k (net1, some out)

/-- `for time in range(nT): self.Observe(inDatum, outDatum)`. -/
noncomputable def ObserveN (inD outD : Vec) : ℕ → Net → Option Net
  | 0, net => some net
  | Nat.succ k, net =>
    match Net.Observe net inD outD with
    | none => none
    | some net1 => ObserveN inD outD k net1

/-- The per-sample body of `Net.Infer` (vivilux/__init__.py lines 70-81):
run `Predict` `nT` times, then `outputData[index] = result` (a `NameError`
if `result` was never bound; a length mismatch with the zero row of shape
`len(inDatum)` raises). -/
noncomputable def inferGo (nT : ℕ) :
    List Vec → Net × Option Vec → Option (List Vec × Net × Option Vec)
  | [], s => some ([], s.1, s.2)
  | d :: ds, s =>
    match PredictN d nT s with
    | none => none
    | some (net1, r1) =>
      match r1 with
      | none => none
      | some out =>
        match npWrite (List.replicate d.length 0) out with
        | none => none
        | some out' =>
          match inferGo nT ds (net1, r1) with
          | none => none
          | some (rest, netF, rF) => some (out' :: rest, netF, rF)

/-- `Net.Infer` (vivilux/__init__.py lines 70-81). -/
noncomputable def Net.Infer (net : Net) (inData : List Vec) (nT : ℕ) :
    Option (List Vec × Net × Option Vec) :=
  inferGo nT inData (net, none)

/-- `Net.Evaluate` (vivilux/__init__.py lines 125-127):
`self.metric(self.Infer(inData, numTimeSteps), outData)`. -/
noncomputable def Net.Evaluate (net : Net) (inData outData : List Vec) (nT : ℕ) :
    Option (ℝ × Net) :=
  match Net.Infer net inData nT with
  | none => none
  | some (outs, net1, _) => some (net1.metric outs outData, net1)

/-- One step of the phase hand-off loop
`layer.obsLin[:] = layer.preLin; layer.obsAct[:] = layer.preAct`
(vivilux/__init__.py lines 107-109). -/
noncomputable def preToObsAt (ls : List Layer) (k : ℕ) : Option (List Layer) :=
  match ls[k]? with
  | none => none
  | some l =>
    match npWrite l.obsLin l.preLin with
    | none => none
    | some ol =>
      match npWrite l.obsAct l.preAct with
      | none => none
      | some oa => some (ls.set k { l with obsLin := ol, obsAct := oa })

/-- One step of the continuity loop
`layer.preLin[:] = layer.obsLin; layer.preAct[:] = layer.obsAct`
(vivilux/__init__.py lines 116-118). -/
noncomputable def obsToPreAt (ls : List Layer) (k : ℕ) : Option (List Layer) :=
  match ls[k]? with
  | none => none
  | some l =>
    match npWrite l.preLin l.obsLin with
    | none => none
    | some pl =>
      match npWrite l.preAct l.obsAct with
      | none => none
      | some pa => some (ls.set k { l with preLin := pl, preAct := pa })

/-- `for layer in self.layers[1:]` hand-off from predict into observe. -/
noncomputable def copyPreToObs (net : Net) : Option Net :=
  match seqOption preToObsAt net.layers (tailIdx net.layers.length) with
  | none => none
  | some ls => some { net with layers := ls }

/-- `for layer in self.layers[1:]` copy-back from observe into predict. -/
noncomputable def copyObsToPre (net : Net) : Option Net :=
  match seqOption obsToPreAt net.layers (tailIdx net.layers.length) with
  | none => none
  | some ls => some { net with layers := ls }

/-- `for layer in self.layers: layer.Learn()` (vivilux/__init__.py lines
113-114). -/
noncomputable def learnAll (rules : RuleT) (net : Net) : Option Net :=
  match seqOption (learnAt rules) net.layers (List.range net.layers.length) with
  | none => none
  | some ls => some { net with layers := ls }

/-- The mutable state threaded through `Net.Learn`'s loops: the evolving
net, `epochResults`, the function-local `lastResult` binding, and the
per-epoch sample `index`. -/
structure TrainState where
  net : Net
  er : List Vec
  last : Option Vec
  idx : ℕ

/-- The per-sample body of the epoch loop in `Net.Learn`
(vivilux/__init__.py lines 99-118): optional reset, `nT` predicts,
`epochResults[index][:] = lastResult`, phase hand-off, `nT` observes,
per-layer `Learn`, copy-back, `index += 1`. -/
noncomputable def trainSample (rules : RuleT) (reset : Bool) (nT : ℕ)
    (s : TrainState) (p : Vec × Vec) : Option TrainState :=
  let net0 := if reset then Net.resetActivity s.net else s.net
  match PredictN p.1 nT (net0, s.last) with
  | none => none
  | some (net1, last1) =>
    match last1 with
    | none => none
    | some lr =>
      match s.er[s.idx]? with
      | none => none
      | some row =>
        match npWrite row lr with
        | none => none
        | some row' =>
          match copyPreToObs net1 with
          | none => none
          | some net2 =>
            match ObserveN p.1 p.2 nT net2 with
            | none => none
            | some net3 =>
              match learnAll rules net3 with
              | none => none
              | some net4 =>
                match copyObsToPre net4 with
                | none => none
                | some net5 =>
                  some { net := net5, er := s.er.set s.idx row',
                         last := last1, idx := s.idx + 1 }

/-- `for inDatum, outDatum in zip(inData, outData)` over one epoch. -/
noncomputable def sampleSeq (rules : RuleT) (reset : Bool) (nT : ℕ) :
    List (Vec × Vec) → TrainState → Option TrainState
  | [], s => some s
  | p :: ps, s =>
    match trainSample rules reset nT s p with
    | none => none
    | some s' => sampleSeq rules reset nT ps s'

/-- One epoch of `Net.Learn` (vivilux/__init__.py lines 96-118):
`index = 0`, then the per-sample loop over the zipped data. -/
noncomputable def runEpoch (rules : RuleT) (reset : Bool) (nT : ℕ)
    (inData outData : List Vec) (s : TrainState) : Option TrainState :=
  sampleSeq rules reset nT (inData.zip outData) { s with idx := 0 }

/-- `runEpoch` iterated from a starting state. -/
noncomputable def epochIter (rules : RuleT) (reset : Bool) (nT : ℕ)
    (inData outData : List Vec) : ℕ → TrainState → Option TrainState
  | 0, s => some s
  | Nat.succ k, s =>
    match runEpoch rules reset nT inData outData s with
    | none => none
    | some s' => epochIter rules reset nT inData outData k s'

/-- The epoch loop of `Net.Learn` (vivilux/__init__.py lines 96-121),
collecting `results[epoch+1] = self.metric(epochResults, outData)`. -/
noncomputable def epochsLoop (rules : RuleT) (reset : Bool) (nT : ℕ)
    (inData outData : List Vec) : ℕ → TrainState → Option (List ℝ × TrainState)
  | 0, s => some ([], s)
  | Nat.succ k, s =>
    match runEpoch rules reset nT inData outData s with
    | none => none
    | some s' =>
      match epochsLoop rules reset nT inData outData k s' with
      | none => none
      | some (rs, sF) => some (s'.net.metric s'.er outData :: rs, sF)

/-- `Net.Learn` (vivilux/__init__.py lines 84-123):
`results[0] = self.Evaluate(inData, outData, numTimeSteps)`,
`epochResults = np.zeros((len(outData), len(self.layers[-1])))`, then the
epoch loop; returns the `numEpochs+1` metric values. -/
noncomputable def Net.Learn (rules : RuleT) (net : Net) (inData outData : List Vec)
    (nT nE : ℕ) (reset : Bool) : Option (List ℝ × Net) :=
  match Net.Evaluate net inData outData nT with
  | none => none
  | some (r0, net1) =>
    match net1.layers.getLast? with
    | none => none
    | some ll =>
      let er0 := List.replicate outData.length (List.replicate ll.preAct.length (0 : ℝ))
      match epochsLoop rules reset nT inData outData nE
          { net := net1, er := er0, last := none, idx := 0 } with
      | none => none
      | some (rs, sF) => some (r0 :: rs, sF.net)

/-- Python list indexing for `self.layers[layerIndex]`: non-negative
indices from the front, negative indices from the back, `IndexError`
(`none`) when out of range. -/
def pyIndex (len : ℕ) (i : ℤ) : Option ℕ :=
  if 0 ≤ i then (if i < (len : ℤ) then some i.toNat else none)
  else (if 0 ≤ i + (len : ℤ) then some (i + (len : ℤ)).toNat else none)

/-- In-place `self.layers[k].rule = rule`. -/
def setRuleAt : List Layer → ℕ → ℕ → List Layer
  | [], _, _ => []
  | l :: ls, 0, r => { l with rule := r } :: ls
  | l :: ls, Nat.succ k, r => l :: setRuleAt ls k r

/-- `Net.setLearningRule` (vivilux/__init__.py lines 145-152): with
`layerIndex == -1` (the declared default) assign the rule to every layer;
otherwise assign it to the single layer `self.layers[layerIndex]`. -/
def Net.setLearningRule (net : Net) (r : ℕ) (layerIndex : ℤ) : Option Net :=
  if layerIndex = -1 then
    some { net with layers := net.layers.map fun l => { l with rule := r } }
  else
    match pyIndex net.layers.length layerIndex with
    | none => none
    | some k => some { net with layers := setRuleAt net.layers k r }

end Vx

namespace Meshes

/-- The input-padding step of the newer `Mesh.apply` (meshes.py line 113):
`data = np.pad(data[:self.size], (0, self.size - len(data)))`.  The pad
width uses the original length of `data`, so data wider than the mesh
raises (`np.pad` rejects a negative width); data no wider than the mesh is
zero-padded on the right up to `size`. -/
def padInput (size : ℕ) (data : List ℝ) : Option (List ℝ) :=
  if data.length ≤ size then
    some (data.take size ++ List.replicate (size - data.length) 0)
  else none

/-- A concrete default-parameterized mesh state (`Off=1`, `Gain=6`, the
`wb*` defaults of `Mesh.__init__`), used to instantiate theorems. -/
noncomputable def mWit : Mesh 1 :=
  { Off := 1, Gain := 6, wbOn := true, wbAvgThr := 1/4, wbHiThr := 2/5,
    wbHiGain := 4, wbLoThr := 2/5, wbLoGain := 6, wbInc := 1, wbDec := 1,
    WtBalInterval := 0, softBound := true, WtBalCtr := 0, wbFact := 0,
    matrix := Matrix.of fun _ _ => 1/2, linMatrix := Matrix.of fun _ _ => 1/2,
    Gscale := 1, AbsScale := 1, RelScale := 1, trainable := true }

/-- A mesh with scale factor `Gscale = 2` and all-ones weights. -/
noncomputable def m3 : Mesh 1 :=
  { mWit with Gscale := 2, matrix := Matrix.of fun _ _ => 1 }

/-- A `TransposeMesh` wrapping `m3`. -/
noncomputable def t3 : TransposeMesh 1 := ⟨m3⟩

/-- A mesh freshly built by `Mesh.__init__` with all default parameters
(including `WtBalInterval = 10`) and a constant `0.5` initial matrix. -/
noncomputable def m4 : Mesh 1 :=
  Mesh.init 1 1 6 true (1/4) (2/5) 4 (2/5) 6 1 1 10 true 1 1
    (Matrix.of fun _ _ => 1/2)

end Meshes

namespace Vx

/-- Well-formedness of a mesh inside a net with `nL` layers, all of
size `n`: the mesh is a forward mesh of matching size whose sending-layer
reference is valid. -/
def MeshWF (nL n : ℕ) (m : Mesh) : Prop :=
  m.size = n ∧ m.inLayer < nL ∧ m.isFb = false

/-- Well-formedness of a layer of size `n` inside a net with `nL` layers:
the four state vectors have length `n`, the activation preserves vector
length, all owned meshes are well-formed, and a layer that would reach
`self.meshes[0]` in `Learn` owns at least one mesh. -/
def LayerWF (nL n : ℕ) (l : Layer) : Prop :=
  l.preLin.length = n ∧ l.preAct.length = n ∧ l.obsLin.length = n ∧
  l.obsAct.length = n ∧ (∀ v : Vec, (l.act v).length = v.length) ∧
  (∀ m ∈ l.meshes, MeshWF nL n m) ∧
  (l.isInput = false → l.freeze = false → l.meshes ≠ [])

/-- Well-formedness of a whole net of uniform layer size `n`. -/
def NetWF (n : ℕ) (net : Net) : Prop :=
  net.layers ≠ [] ∧ ∀ l ∈ net.layers, LayerWF net.layers.length n l

/-- A concrete forward mesh of size 1 (as built by `Net.__init__` for the
layer pair below). -/
noncomputable def mesh0 : Mesh :=
  { size := 1, matrix := fun _ _ => 1, rate := 1/2, inLayer := 0,
    isFb := false, fbLayer := 0 }

/-- A concrete feedback mesh (an `fbMesh` wrapping `mesh0` of layer 1). -/
noncomputable def meshFb : Mesh :=
  { mesh0 with isFb := true, fbLayer := 1 }

/-- A concrete input layer of size 1. -/
def layIn : Layer :=
  { preLin := [0], preAct := [0], obsLin := [0], obsAct := [0],
    act := fun v => v, rule := 0, meshes := [], isInput := true,
    freeze := false }

/-- A concrete non-input layer of size 1 owning one forward mesh. -/
noncomputable def layOut : Layer :=
  { layIn with isInput := false, meshes := [mesh0] }

/-- A concrete non-input layer owning a forward mesh and a feedback mesh,
as an interior layer of an `FFFB` net would. -/
noncomputable def layTwoMesh : Layer :=
  { layIn with isInput := false, meshes := [mesh0, meshFb] }

/-- A concrete two-layer net (input then output) with a trivial metric. -/
noncomputable def netW : Net :=
  { layers := [layIn, layOut], metric := fun _ _ => 0 }

/-- A trivial rule table producing the zero delta. -/
def rules0 : RuleT := fun _ _ _ => fun _ _ => 0

/-- A concrete layer of size 4 with zeroed state. -/
def lay8 : Layer :=
  { layIn with
    isInput := false
    freeze := true
    preLin := [0, 0, 0, 0]
    preAct := [0, 0, 0, 0]
    obsLin := [0, 0, 0, 0]
    obsAct := [0, 0, 0, 0] }

end Vx

/-- Every `SigEntry` value lies in `[0,1]` when the sigmoid offset is
positive: the boundary masks produce `0` and `1`, and on the interior the
base of the power is positive, so the power is positive. -/
theorem SigEntry_mem_unit (Off Gain x : ℝ) (hOff : 0 < Off) :
    0 ≤ Meshes.SigEntry Off Gain x ∧ Meshes.SigEntry Off Gain x ≤ 1 := by
  unfold Meshes.SigEntry Meshes.sigmoid
  split_ifs with h1 h2
  · exact ⟨le_refl 0, zero_le_one⟩
  · exact ⟨zero_le_one, le_refl 1⟩
  · have hx0 : 0 < x := lt_of_not_le h1
    have hx1 : x < 1 := lt_of_not_le h2
    have hb : 0 < Off * (1 - x) / x :=
      div_pos (mul_pos hOff (by linarith)) hx0
    have ht : 0 < (Off * (1 - x) / x) ^ Gain := Real.rpow_pos_of_pos hb Gain
    constructor
    · exact le_of_lt (div_pos one_pos (by linarith))
    · rw [div_le_one (by linarith)]
      linarith

/-- `Mesh.WtBalance` only touches the balance counter and factors; the
weight matrices are unchanged. -/
theorem WtBalance_matrix {n : ℕ} (m : Meshes.Mesh n) :
    (Meshes.Mesh.WtBalance m).matrix = m.matrix := by
  unfold Meshes.Mesh.WtBalance
  dsimp only
  split_ifs <;> rfl

/-- C1: for every Mesh (with a positive sigmoid offset `Off`, as in the
default parameterization `Off = 1`), after any call to `Update` every
entry of the bounded weight matrix `matrix` lies in `[0,1]`: `Update`
clips `linMatrix` to `[0,1]` and recomputes `matrix` through `SigMatrix`
(values `<= 0` map to `0`, values `>= 1` map to `1`, interior values map
through the logistic-like `sigmoid`). -/
theorem C1_update_matrix_in_unit_interval {n : ℕ} (m : Meshes.Mesh n)
    (dm dn : ℕ) (delta : ℕ → ℕ → ℝ) (hOff : 0 < m.Off) :
    ∀ i j, 0 ≤ (Meshes.Mesh.Update m dm dn delta).matrix i j ∧
      (Meshes.Mesh.Update m dm dn delta).matrix i j ≤ 1 := by
  intro i j
  have h : (Meshes.Mesh.Update m dm dn delta).matrix i j
      = Meshes.SigEntry m.Off m.Gain
          ((Meshes.Mesh.ClipLinMatrix
            { m with linMatrix := Matrix.of fun i j =>
                if i.val < dm ∧ j.val < dn then
                  m.linMatrix i j +
                    Meshes.SoftBoundEntry m (m.linMatrix i j) (delta i.val j.val)
                else m.linMatrix i j }).linMatrix i j) := by
    unfold Meshes.Mesh.Update
    rw [WtBalance_matrix]
    rfl
  rw [h]
  exact SigEntry_mem_unit m.Off m.Gain _ hOff

/-- Witness for C1 at a concrete default-parameterized mesh. -/
theorem C1_witness : 0 < Meshes.mWit.Off ∧
    (∀ i j, 0 ≤ (Meshes.Mesh.Update Meshes.mWit 1 1 fun _ _ => 1).matrix i j ∧
      (Meshes.Mesh.Update Meshes.mWit 1 1 fun _ _ => 1).matrix i j ≤ 1) :=
  ⟨by norm_num [Meshes.mWit],
   C1_update_matrix_in_unit_interval Meshes.mWit 1 1 (fun _ _ => 1)
     (by norm_num [Meshes.mWit])⟩

/-- C2 counterexample: with the parameterization `Off = 2`, `Gain = 2`
(legal constructor arguments for a Mesh) the forward transform applied to
the inverse transform of `1/2` yields `1/3`, not `1/2`, so `sigmoid` and
`invSigmoid` are not exact inverses for every parameterization. -/
theorem C2_counterexample :
    (0 < (1/2 : ℝ) ∧ (1/2 : ℝ) < 1) ∧
    Meshes.sigmoid 2 2 (Meshes.invSigmoid 2 2 (1/2)) ≠ 1/2 := by
  refine ⟨⟨by norm_num, by norm_num⟩, ?_⟩
  have hs2 : (((1:ℝ)/2) ^ ((1:ℝ)/2)) ^ (2:ℝ) = 1/2 := by
    rw [← Real.rpow_mul (by norm_num : (0:ℝ) ≤ 1/2)]
    norm_num
  set s : ℝ := ((1:ℝ)/2) ^ ((1:ℝ)/2) with hs
  have hspos : 0 < s := Real.rpow_pos_of_pos (by norm_num) _
  have h1s : (0:ℝ) < 1 + s := by linarith
  have hinv : Meshes.invSigmoid 2 2 (1/2) = 1/(1+s) := by
    unfold Meshes.invSigmoid
    rw [hs]
    norm_num
  have harg : (2:ℝ) * (1 - 1/(1+s)) / (1/(1+s)) = 2*s := by
    field_simp
  have hs2n : s ^ (2:ℕ) = 1/2 := by
    rw [← Real.rpow_natCast s 2]
    push_cast
    exact hs2
  have hpow : ((2:ℝ)*s) ^ (2:ℝ) = 2 := by
    rw [show ((2:ℝ)*s) ^ (2:ℝ) = ((2:ℝ)*s) ^ ((2:ℕ):ℝ) by norm_num,
        Real.rpow_natCast]
    rw [mul_pow, hs2n]
    norm_num
  unfold Meshes.sigmoid
  rw [hinv, harg, hpow]
  norm_num

/-- C2 amended: for the default offset `Off = 1` (and any nonzero `Gain`),
the bounded transform and its inverse are exact inverses on `(0,1)`:
`sigmoid 1 Gain (invSigmoid 1 Gain x) = x`. -/
theorem C2_amended_inverse_default_Off (Gain x : ℝ) (hG : Gain ≠ 0)
    (h0 : 0 < x) (h1 : x < 1) :
    Meshes.sigmoid 1 Gain (Meshes.invSigmoid 1 Gain x) = x := by
  have hq : 0 < (1 - x) / x := div_pos (by linarith) h0
  have hbase : (1/(1:ℝ)) * (1 - x) / x = (1 - x)/x := by norm_num
  set b : ℝ := ((1 - x) / x) ^ ((1:ℝ) / Gain) with hb
  have hbpos : 0 < b := Real.rpow_pos_of_pos hq _
  have h1b : (0:ℝ) < 1 + b := by linarith
  have hinv : Meshes.invSigmoid 1 Gain x = 1/(1+b) := by
    unfold Meshes.invSigmoid
    rw [hbase]
  have harg : (1:ℝ) * (1 - 1/(1+b)) / (1/(1+b)) = b := by
    field_simp
  have hpow : b ^ Gain = (1 - x)/x := by
    rw [hb, ← Real.rpow_mul (le_of_lt hq)]
    rw [one_div, inv_mul_cancel₀ hG, Real.rpow_one]
  unfold Meshes.sigmoid
  rw [hinv, harg, hpow]
  have hden : 1 + (1 - x)/x = 1/x := by
    field_simp
  rw [hden, one_div_one_div]

/-- Witness for the amended C2 at the default parameterization. -/
theorem C2_amended_witness :
    ((6:ℝ) ≠ 0 ∧ 0 < (1/2:ℝ) ∧ (1/2:ℝ) < 1) ∧
    Meshes.sigmoid 1 6 (Meshes.invSigmoid 1 6 (1/2)) = 1/2 :=
  ⟨⟨by norm_num, by norm_num, by norm_num⟩,
   C2_amended_inverse_default_Off 6 (1/2) (by norm_num) (by norm_num) (by norm_num)⟩

/-- C3 counterexample: for a target mesh with `Gscale = 2` and all-ones
weights, the effective matrix of its TransposeMesh has entry `4`, while
the transpose of the target's `matrix` times `Gscale` (applied once) has
entry `2`: `TransposeMesh.get` multiplies by `Gscale` twice, once inside
`self.mesh.get()` and once more explicitly. -/
theorem C3_counterexample :
    Meshes.TransposeMesh.get Meshes.t3 0 0 ≠
      (Meshes.t3.mesh.Gscale • (Meshes.t3.mesh.matrix).transpose) 0 0 := by
  show (2:ℝ) • ((2:ℝ) • Meshes.m3.matrix).transpose 0 0 ≠
    (2:ℝ) • (Meshes.m3.matrix).transpose 0 0
  have h : Meshes.m3.matrix 0 0 = 1 := rfl
  simp [Matrix.transpose_apply, h]

/-- C3 amended: the effective matrix of a TransposeMesh equals the
transpose of its target's `matrix` scaled by `Gscale` squared (the target
scale factor is applied twice: once inside `targetMesh.get()` and once
more in `TransposeMesh.get`). -/
theorem C3_amended_transpose_get {n : ℕ} (t : Meshes.TransposeMesh n) :
    Meshes.TransposeMesh.get t =
      (t.mesh.Gscale ^ 2) • (t.mesh.matrix).transpose := by
  unfold Meshes.TransposeMesh.get Meshes.Mesh.get
  rw [Matrix.transpose_smul, smul_smul, sq]

/-- C4: evaluating `Mesh.WtBalance` on a mesh freshly built by
`Mesh.__init__` with all-default parameters (`WtBalInterval` parameter
`10`) and a constant `0.5` weight matrix.  Because line 51 of meshes.py
assigns the attribute `WtBalInterval = 0` (ignoring the parameter), the
balance step runs on the very first call and already changes the
increment factor from `1` to `5/7`, instead of leaving the factors
unchanged until the tenth call. -/
theorem C4_weight_balance_runs_every_call :
    Meshes.m4.WtBalInterval = 0 ∧ Meshes.m4.WtBalCtr = 0 ∧
    Meshes.m4.wbInc = 1 ∧ (Meshes.Mesh.WtBalance Meshes.m4).wbInc = 5/7 := by
  have hm : ∀ i j, Meshes.m4.matrix i j = 1/2 := by
    intro i j
    show (if (1/2:ℝ) ≤ 0 then (0:ℝ) else if (1:ℝ) ≤ 1/2 then 1 else 1/2) = 1/2
    norm_num
  have havg : Meshes.matMean Meshes.m4.matrix = 1/2 := by
    simp [Meshes.matMean, hm]
  refine ⟨rfl, rfl, rfl, ?_⟩
  have hlo : Meshes.m4.wbLoThr = 2/5 := rfl
  have hhi : Meshes.m4.wbHiThr = 2/5 := rfl
  have hhig : Meshes.m4.wbHiGain = 4 := rfl
  have hint : Meshes.m4.WtBalInterval = 0 := rfl
  unfold Meshes.Mesh.WtBalance
  dsimp only
  rw [if_pos (by rw [hint]; exact Nat.zero_le _)]
  rw [if_neg (by rw [havg, hlo]; norm_num)]
  rw [if_pos (by rw [havg, hhi]; norm_num)]
  show 1 / (1 + Meshes.m4.wbHiGain * (Meshes.matMean Meshes.m4.matrix - Meshes.m4.wbHiThr)) = 5/7
  rw [havg, hhi, hhig]
  norm_num

/-- C7: a TransposeMesh is read-only: `Update` leaves the whole state —
in particular the target mesh's `matrix` and `linMatrix` — unchanged, and
`set` raises instead of silently ignoring the request. -/
theorem C7_transpose_mesh_readonly {n : ℕ} (t : Meshes.TransposeMesh n) :
    Meshes.TransposeMesh.Update t = t ∧
    (Meshes.TransposeMesh.Update t).mesh.matrix = t.mesh.matrix ∧
    (Meshes.TransposeMesh.Update t).mesh.linMatrix = t.mesh.linMatrix ∧
    ∃ e, Meshes.TransposeMesh.set t = Except.error e :=
  ⟨rfl, rfl, rfl, ⟨_, rfl⟩⟩

/-- C9: applying a mesh to a data vector whose length is incompatible
with the matrix dimension reports a diagnostic and yields no result
(`none`, the caught-`ValueError` path of `applyTo`) instead of raising,
and leaves the mesh's weight state unchanged. -/
theorem C9_applyTo_mismatch_yields_none {n : ℕ} (m : Meshes.Mesh n)
    (data : List ℝ) (h : data.length ≠ n) :
    (Meshes.Mesh.applyTo m data).1 = none ∧
    (Meshes.Mesh.applyTo m data).2.1 = true ∧
    (Meshes.Mesh.applyTo m data).2.2 = m := by
  unfold Meshes.Mesh.applyTo
  rw [if_neg h]
  exact ⟨rfl, rfl, rfl⟩

/-- Witness for C9: the empty data vector against a 1×1 mesh. -/
theorem C9_witness :
    (([] : List ℝ).length ≠ 1) ∧
    ((Meshes.Mesh.applyTo Meshes.mWit ([] : List ℝ)).1 = none ∧
     (Meshes.Mesh.applyTo Meshes.mWit ([] : List ℝ)).2.1 = true ∧
     (Meshes.Mesh.applyTo Meshes.mWit ([] : List ℝ)).2.2 = Meshes.mWit) :=
  ⟨by simp, C9_applyTo_mismatch_yields_none Meshes.mWit [] (by simp)⟩

/-- C5: `Layer.Learn` is a no-op when `isInput` or `freeze` is set;
otherwise it asks the learning rule for a delta given (sending layer of
the first owned mesh, self) and calls `Update` on that first owned mesh
only, leaving every other owned mesh (including feedback meshes) and all
other layer state unchanged. -/
theorem C5_layer_learn_first_mesh_only (rules : Vx.RuleT) (ls : List Vx.Layer)
    (l : Vx.Layer) (m : Vx.Mesh) (rest : List Vx.Mesh)
    (hm : l.meshes = m :: rest) :
    ((l.isInput = true ∨ l.freeze = true) →
      Vx.Layer.LearnL rules ls l = some l) ∧
    (l.isInput = false → l.freeze = false →
      Vx.Layer.LearnL rules ls l =
        some { l with meshes :=
          Vx.Mesh.Update m (rules l.rule (ls.getD m.inLayer default) l) :: rest }) := by
  constructor
  · intro h
    unfold Vx.Layer.LearnL
    rcases h with h | h <;> simp [h]
  · intro h1 h2
    unfold Vx.Layer.LearnL
    simp [h1, h2, hm]

/-- Witness for C5: a trainable layer owning a forward mesh and a
feedback mesh; only the first is updated, the feedback mesh survives
unchanged in the tail. -/
theorem C5_witness :
    Vx.layTwoMesh.meshes = Vx.mesh0 :: [Vx.meshFb] ∧
    (Vx.layTwoMesh.isInput = false → Vx.layTwoMesh.freeze = false →
      Vx.Layer.LearnL Vx.rules0 [Vx.layIn, Vx.layTwoMesh] Vx.layTwoMesh =
        some { Vx.layTwoMesh with
               meshes := Vx.Mesh.Update Vx.mesh0
                 (Vx.rules0 Vx.layTwoMesh.rule
                   ([Vx.layIn, Vx.layTwoMesh].getD Vx.mesh0.inLayer default)
                   Vx.layTwoMesh) :: [Vx.meshFb] }) :=
  ⟨rfl,
   (C5_layer_learn_first_mesh_only Vx.rules0 [Vx.layIn, Vx.layTwoMesh]
      Vx.layTwoMesh Vx.mesh0 [Vx.meshFb] rfl).2⟩

/-- C8 counterexample: a layer of size 4 clamped with the 1-element data
vector `[1]` ends up with `preAct = [1]` of length 1 — the state vector
shrinks to the data's length instead of being zero-padded to the layer's
size. -/
theorem C8_counterexample :
    Vx.lay8.preAct.length = 4 ∧
    (Vx.Layer.ClampPre Vx.lay8 [1]).preAct.length ≠ 4 ∧
    (Vx.Layer.ClampPre Vx.lay8 [1]).preAct ≠ [1, 0, 0, 0] := by
  refine ⟨rfl, ?_, ?_⟩ <;> simp [Vx.Layer.ClampPre, Vx.lay8, Vx.layIn]

/-- C8 amended: `ClampPre`/`ClampObs` set the corresponding pair of state
vectors to the clamp data truncated to the layer's size (so their length
is `min size (len data)`: exactly `size` for data at least as wide, the
data's length — no zero-padding — for narrower data), and leave the other
phase's vectors untouched.  Zero-padding to the mesh size happens only at
mesh level, in the newer `Mesh.apply` input padding. -/
theorem C8_amended_clamp_truncates (l : Vx.Layer) (data : Vx.Vec) :
    ((Vx.Layer.ClampPre l data).preLin = data.take l.preAct.length ∧
     (Vx.Layer.ClampPre l data).preAct.length = min l.preAct.length data.length ∧
     (Vx.Layer.ClampPre l data).obsLin = l.obsLin ∧
     (Vx.Layer.ClampPre l data).obsAct = l.obsAct) ∧
    ((Vx.Layer.ClampObs l data).obsLin = data.take l.preAct.length ∧
     (Vx.Layer.ClampObs l data).obsAct.length = min l.preAct.length data.length ∧
     (Vx.Layer.ClampObs l data).preLin = l.preLin ∧
     (Vx.Layer.ClampObs l data).preAct = l.preAct) ∧
    (∀ sz : ℕ, data.length ≤ sz →
      Meshes.padInput sz data =
        some (data ++ List.replicate (sz - data.length) 0) ∧
      (data ++ List.replicate (sz - data.length) (0:ℝ)).length = sz) := by
  refine ⟨⟨rfl, by simp [Vx.Layer.ClampPre], rfl, rfl⟩,
          ⟨rfl, by simp [Vx.Layer.ClampObs], rfl, rfl⟩, ?_⟩
  intro sz hsz
  constructor
  · unfold Meshes.padInput
    rw [if_pos hsz, List.take_of_length_le hsz]
  · simp
    omega

/-- Witness for C8 amended: the size-4 layer clamped with narrow data,
and mesh-level padding of the same data to width 4. -/
theorem C8_amended_witness :
    ((Vx.Layer.ClampPre Vx.lay8 [1]).preLin = [(1:ℝ)].take Vx.lay8.preAct.length ∧
     (Vx.Layer.ClampPre Vx.lay8 [1]).preAct.length =
       min Vx.lay8.preAct.length [(1:ℝ)].length ∧
     (Vx.Layer.ClampPre Vx.lay8 [1]).obsLin = Vx.lay8.obsLin ∧
     (Vx.Layer.ClampPre Vx.lay8 [1]).obsAct = Vx.lay8.obsAct) ∧
    ([(1:ℝ)].length ≤ 4 ∧
      Meshes.padInput 4 [(1:ℝ)] =
        some ([(1:ℝ)] ++ List.replicate (4 - [(1:ℝ)].length) 0)) :=
  ⟨((C8_amended_clamp_truncates Vx.lay8 [1]).1),
   ⟨by simp,
    ((C8_amended_clamp_truncates Vx.lay8 [1]).2.2 4 (by simp)).1⟩⟩

/-- `setRuleAt` leaves every index other than the target unchanged. -/
theorem setRuleAt_get_ne (ls : List Vx.Layer) (k r j : ℕ) (hj : j ≠ k) :
    (Vx.setRuleAt ls k r)[j]? = ls[j]? := by
  induction ls generalizing k j with
  | nil => simp [Vx.setRuleAt]
  | cons l ls ih =>
    cases k with
    | zero =>
      cases j with
      | zero => exact absurd rfl hj
      | succ j => simp [Vx.setRuleAt]
    | succ k =>
      cases j with
      | zero => simp [Vx.setRuleAt]
      | succ j => simpa [Vx.setRuleAt] using ih k j (by omega)

/-- `setRuleAt` rewrites exactly the rule of the addressed layer. -/
theorem setRuleAt_get_eq (ls : List Vx.Layer) (k r : ℕ) :
    (Vx.setRuleAt ls k r)[k]? = ls[k]?.map fun l => { l with rule := r } := by
  induction ls generalizing k with
  | nil => simp [Vx.setRuleAt]
  | cons l ls ih =>
    cases k with
    | zero => simp [Vx.setRuleAt]
    | succ k => simpa [Vx.setRuleAt] using ih k

/-- C10: `setLearningRule` with the default index `-1` assigns the rule
to every layer (including the input layer) — so `-1` can never address
the last layer individually — while any other (valid) index assigns the
rule to exactly that one layer, Python-style, leaving all other layers
unchanged. -/
theorem C10_setLearningRule_spec (net : Vx.Net) (r : ℕ) :
    (Vx.Net.setLearningRule net r (-1) =
      some { net with layers := net.layers.map fun l => { l with rule := r } }) ∧
    (∀ i : ℤ, i ≠ -1 → ∀ k : ℕ, Vx.pyIndex net.layers.length i = some k →
      Vx.Net.setLearningRule net r i =
        some { net with layers := Vx.setRuleAt net.layers k r } ∧
      (∀ j : ℕ, j ≠ k → (Vx.setRuleAt net.layers k r)[j]? = net.layers[j]?) ∧
      (Vx.setRuleAt net.layers k r)[k]? =
        net.layers[k]?.map fun l => { l with rule := r }) := by
  constructor
  · unfold Vx.Net.setLearningRule
    rw [if_pos rfl]
  · intro i hi k hk
    refine ⟨?_, fun j hj => setRuleAt_get_ne net.layers k r j hj,
            setRuleAt_get_eq net.layers k r⟩
    unfold Vx.Net.setLearningRule
    rw [if_neg hi, hk]

/-- Witness for C10: index `0` on the concrete two-layer net addresses
exactly the input layer. -/
theorem C10_witness :
    ((0:ℤ) ≠ -1 ∧ Vx.pyIndex Vx.netW.layers.length 0 = some 0) ∧
    (Vx.Net.setLearningRule Vx.netW 7 0 =
      some { Vx.netW with layers := Vx.setRuleAt Vx.netW.layers 0 7 } ∧
     (∀ j : ℕ, j ≠ 0 → (Vx.setRuleAt Vx.netW.layers 0 7)[j]? = Vx.netW.layers[j]?) ∧
     (Vx.setRuleAt Vx.netW.layers 0 7)[0]? =
       Vx.netW.layers[0]?.map fun l => { l with rule := 7 }) :=
  ⟨⟨by decide, by decide⟩,
   (C10_setLearningRule_spec Vx.netW 7).2 0 (by decide) 0 (by decide)⟩

/-- `npWrite` succeeds and copies the source when the lengths agree. -/
theorem npWrite_eq (dst src : Vx.Vec) (h : src.length = dst.length) :
    Vx.npWrite dst src = some src := by
  unfold Vx.npWrite
  rw [if_pos h]

/-- `npAdd` succeeds when the lengths agree, preserving the length. -/
theorem npAdd_ok (a b : Vx.Vec) (h : b.length = a.length) :
    ∃ c, Vx.npAdd a b = some c ∧ c.length = a.length := by
  unfold Vx.npAdd
  rw [if_pos h]
  exact ⟨_, rfl, by simp [h]⟩

/-- A well-formed forward mesh applied to the predict-phase activation of
its (valid) sending layer succeeds with a length-`n` result. -/
theorem PredictData_ok (n : ℕ) (ls : List Vx.Layer) (m : Vx.Mesh)
    (hm : Vx.MeshWF ls.length n m)
    (hls : ∀ lx ∈ ls, lx.preAct.length = n) :
    ∃ r, Vx.Mesh.PredictData ls m = some r ∧ r.length = n := by
  obtain ⟨hsz, hin, hfb⟩ := hm
  have hdata : (ls.getD m.inLayer default).preAct.length = n := by
    rw [List.getD_eq_getElem ls default hin]
    exact hls _ (List.getElem_mem hin)
  unfold Vx.Mesh.PredictData Vx.Mesh.applyInNet
  rw [if_neg (by simp [hfb])]
  unfold Vx.Mesh.applyV
  rw [if_pos (by rw [hdata, hsz])]
  exact ⟨_, rfl, by simp [hsz]⟩

/-- Observe-phase analogue of `PredictData_ok`. -/
theorem ObserveData_ok (n : ℕ) (ls : List Vx.Layer) (m : Vx.Mesh)
    (hm : Vx.MeshWF ls.length n m)
    (hls : ∀ lx ∈ ls, lx.obsAct.length = n) :
    ∃ r, Vx.Mesh.ObserveData ls m = some r ∧ r.length = n := by
  obtain ⟨hsz, hin, hfb⟩ := hm
  have hdata : (ls.getD m.inLayer default).obsAct.length = n := by
    rw [List.getD_eq_getElem ls default hin]
    exact hls _ (List.getElem_mem hin)
  unfold Vx.Mesh.ObserveData Vx.Mesh.applyInNet
  rw [if_neg (by simp [hfb])]
  unfold Vx.Mesh.applyV
  rw [if_pos (by rw [hdata, hsz])]
  exact ⟨_, rfl, by simp [hsz]⟩

/-- The predict-phase mesh-contribution loop succeeds on well-formed
meshes and preserves the accumulator length. -/
theorem predictAccum_ok (n : ℕ) (ls : List Vx.Layer) (ms : List Vx.Mesh)
    (hms : ∀ m ∈ ms, Vx.MeshWF ls.length n m)
    (hls : ∀ lx ∈ ls, lx.preAct.length = n)
    (acc : Vx.Vec) (hacc : acc.length = n) :
    ∃ res, Vx.predictAccum ls n ms acc = some res ∧ res.length = n := by
  induction ms generalizing acc with
  | nil => exact ⟨acc, rfl, hacc⟩
  | cons m ms ih =>
    obtain ⟨r, hr, hrl⟩ := PredictData_ok n ls m (hms m (by simp)) hls
    obtain ⟨acc', hadd, haccl⟩ :=
      npAdd_ok acc ((r.take n).map fun x => Vx.DELTA_TIME * x ^ 2)
        (by simp [hrl, hacc])
    obtain ⟨res, hres, hresl⟩ :=
      ih (fun m' hm' => hms m' (by simp [hm'])) acc' (by rw [haccl, hacc])
    refine ⟨res, ?_, hresl⟩
    simp only [Vx.predictAccum, hr, hadd]
    exact hres

/-- Observe-phase analogue of `predictAccum_ok`. -/
theorem observeAccum_ok (n : ℕ) (ls : List Vx.Layer) (ms : List Vx.Mesh)
    (hms : ∀ m ∈ ms, Vx.MeshWF ls.length n m)
    (hls : ∀ lx ∈ ls, lx.obsAct.length = n)
    (acc : Vx.Vec) (hacc : acc.length = n) :
    ∃ res, Vx.observeAccum ls n ms acc = some res ∧ res.length = n := by
  induction ms generalizing acc with
  | nil => exact ⟨acc, rfl, hacc⟩
  | cons m ms ih =>
    obtain ⟨r, hr, hrl⟩ := ObserveData_ok n ls m (hms m (by simp)) hls
    obtain ⟨acc', hadd, haccl⟩ :=
      npAdd_ok acc ((r.take n).map fun x => Vx.DELTA_TIME * x ^ 2)
        (by simp [hrl, hacc])
    obtain ⟨res, hres, hresl⟩ :=
      ih (fun m' hm' => hms m' (by simp [hm'])) acc' (by rw [haccl, hacc])
    refine ⟨res, ?_, hresl⟩
    simp only [Vx.observeAccum, hr, hadd]
    exact hres

/-- `Layer.Predict` on a well-formed layer succeeds, producing the layer
with `preLin` replaced by a length-`n` vector and `preAct` its image
under the activation. -/
theorem PredictL_ok (n : ℕ) (ls : List Vx.Layer) (l : Vx.Layer)
    (hl : Vx.LayerWF ls.length n l)
    (hls : ∀ lx ∈ ls, lx.preAct.length = n) :
    ∃ pl, Vx.Layer.PredictL ls l =
        some { l with preLin := pl, preAct := l.act pl } ∧ pl.length = n := by
  obtain ⟨h1, h2, h3, h4, hact, hms, hne⟩ := hl
  obtain ⟨pl, hpl, hpll⟩ := predictAccum_ok n ls l.meshes hms hls
    (l.preLin.map fun x => x - Vx.DELTA_TIME * x) (by simpa using h1)
  refine ⟨pl, ?_, hpll⟩
  unfold Vx.Layer.PredictL
  rw [h2, hpl]

/-- Observe-phase analogue of `PredictL_ok`. -/
theorem ObserveL_ok (n : ℕ) (ls : List Vx.Layer) (l : Vx.Layer)
    (hl : Vx.LayerWF ls.length n l)
    (hls : ∀ lx ∈ ls, lx.obsAct.length = n) :
    ∃ ol, Vx.Layer.ObserveL ls l =
        some { l with obsLin := ol, obsAct := l.act ol } ∧ ol.length = n := by
  obtain ⟨h1, h2, h3, h4, hact, hms, hne⟩ := hl
  obtain ⟨ol, hol, holl⟩ := observeAccum_ok n ls l.meshes hms hls
    (l.obsLin.map fun x => x - Vx.DELTA_TIME * x) (by simpa using h3)
  refine ⟨ol, ?_, holl⟩
  unfold Vx.Layer.ObserveL
  rw [h2, hol]

/-- Replacing the predict-phase pair with a fresh length-`n` linear state
and its activation preserves layer well-formedness. -/
theorem LayerWF_update_pre {nL n : ℕ} {l : Vx.Layer}
    (hl : Vx.LayerWF nL n l) {pl : Vx.Vec} (hpl : pl.length = n) :
    Vx.LayerWF nL n { l with preLin := pl, preAct := l.act pl } := by
  obtain ⟨h1, h2, h3, h4, hact, hms, hne⟩ := hl
  exact ⟨hpl, (hact pl).trans hpl, h3, h4, hact, hms, hne⟩

/-- Observe-phase analogue of `LayerWF_update_pre`. -/
theorem LayerWF_update_obs {nL n : ℕ} {l : Vx.Layer}
    (hl : Vx.LayerWF nL n l) {ol : Vx.Vec} (hol : ol.length = n) :
    Vx.LayerWF nL n { l with obsLin := ol, obsAct := l.act ol } := by
  obtain ⟨h1, h2, h3, h4, hact, hms, hne⟩ := hl
  exact ⟨h1, h2, hol, (hact ol).trans hol, hact, hms, hne⟩

/-- Clamping with data at least as wide as the layer preserves layer
well-formedness (predict phase). -/
theorem LayerWF_ClampPre {nL n : ℕ} {l : Vx.Layer}
    (hl : Vx.LayerWF nL n l) {data : Vx.Vec} (hd : n ≤ data.length) :
    Vx.LayerWF nL n (Vx.Layer.ClampPre l data) := by
  obtain ⟨h1, h2, h3, h4, hact, hms, hne⟩ := hl
  have ht : (data.take l.preAct.length).length = n := by
    simp [h2]
    omega
  exact ⟨ht, ht, h3, h4, hact, hms, hne⟩

/-- Clamping with data at least as wide as the layer preserves layer
well-formedness (observe phase). -/
theorem LayerWF_ClampObs {nL n : ℕ} {l : Vx.Layer}
    (hl : Vx.LayerWF nL n l) {data : Vx.Vec} (hd : n ≤ data.length) :
    Vx.LayerWF nL n (Vx.Layer.ClampObs l data) := by
  obtain ⟨h1, h2, h3, h4, hact, hms, hne⟩ := hl
  have ht : (data.take l.preAct.length).length = n := by
    simp [h2]
    omega
  exact ⟨h1, h2, ht, ht, hact, hms, hne⟩

/-- `Mesh.Update` preserves mesh well-formedness. -/
theorem MeshWF_Update {nL n : ℕ} {m : Vx.Mesh} (hm : Vx.MeshWF nL n m)
    (d : Vx.Delta) : Vx.MeshWF nL n (Vx.Mesh.Update m d) := by
  obtain ⟨h1, h2, h3⟩ := hm
  unfold Vx.Mesh.Update
  rw [if_neg (by simp [h3])]
  exact ⟨h1, h2, h3⟩

/-- `Layer.resetActivity` preserves layer well-formedness. -/
theorem LayerWF_reset {nL n : ℕ} {l : Vx.Layer} (hl : Vx.LayerWF nL n l) :
    Vx.LayerWF nL n (Vx.Layer.resetActivity l) := by
  obtain ⟨h1, h2, h3, h4, hact, hms, hne⟩ := hl
  unfold Vx.Layer.resetActivity
  exact ⟨by simpa using h2, by simpa using h2, by simpa using h2,
         by simpa using h2, hact, hms, hne⟩

/-- One in-place predict step at a valid index succeeds and preserves
length and well-formedness of the layer list. -/
theorem predictAt_ok (n : ℕ) (ls : List Vx.Layer) (k : ℕ) (hk : k < ls.length)
    (hls : ∀ lx ∈ ls, Vx.LayerWF ls.length n lx) :
    ∃ ls', Vx.predictAt ls k = some ls' ∧ ls'.length = ls.length ∧
      ∀ lx ∈ ls', Vx.LayerWF ls'.length n lx := by
  have hwf := hls _ (List.getElem_mem hk)
  obtain ⟨pl, hpl, hpll⟩ :=
    PredictL_ok n ls ls[k] hwf (fun lx hlx => (hls lx hlx).2.1)
  refine ⟨ls.set k { ls[k] with preLin := pl, preAct := ls[k].act pl },
    ?_, by simp, ?_⟩
  · unfold Vx.predictAt
    simp only [List.getElem?_eq_getElem hk, hpl]
  · intro lx hlx
    rw [List.length_set]
    rcases List.mem_or_eq_of_mem_set hlx with h | h
    · exact hls _ h
    · rw [h]
      exact LayerWF_update_pre hwf hpll

/-- Observe-phase analogue of `predictAt_ok`. -/
theorem observeAt_ok (n : ℕ) (ls : List Vx.Layer) (k : ℕ) (hk : k < ls.length)
    (hls : ∀ lx ∈ ls, Vx.LayerWF ls.length n lx) :
    ∃ ls', Vx.observeAt ls k = some ls' ∧ ls'.length = ls.length ∧
      ∀ lx ∈ ls', Vx.LayerWF ls'.length n lx := by
  have hwf := hls _ (List.getElem_mem hk)
  obtain ⟨ol, hol, holl⟩ :=
    ObserveL_ok n ls ls[k] hwf (fun lx hlx => (hls lx hlx).2.2.2.1)
  refine ⟨ls.set k { ls[k] with obsLin := ol, obsAct := ls[k].act ol },
    ?_, by simp, ?_⟩
  · unfold Vx.observeAt
    simp only [List.getElem?_eq_getElem hk, hol]
  · intro lx hlx
    rw [List.length_set]
    rcases List.mem_or_eq_of_mem_set hlx with h | h
    · exact hls _ h
    · rw [h]
      exact LayerWF_update_obs hwf holl

/-- Sequencing an index-wise optional layer transformer that succeeds and
preserves length/well-formedness at valid indices succeeds over any list
of valid indices. -/
theorem seqOption_ok (n : ℕ) (f : List Vx.Layer → ℕ → Option (List Vx.Layer))
    (hf : ∀ ls k, k < ls.length → (∀ lx ∈ ls, Vx.LayerWF ls.length n lx) →
      ∃ ls', f ls k = some ls' ∧ ls'.length = ls.length ∧
        ∀ lx ∈ ls', Vx.LayerWF ls'.length n lx)
    (ks : List ℕ) :
    ∀ ls, (∀ k ∈ ks, k < ls.length) →
      (∀ lx ∈ ls, Vx.LayerWF ls.length n lx) →
      ∃ ls', Vx.seqOption f ls ks = some ls' ∧ ls'.length = ls.length ∧
        ∀ lx ∈ ls', Vx.LayerWF ls'.length n lx := by
  induction ks with
  | nil => exact fun ls _ hls => ⟨ls, rfl, rfl, hls⟩
  | cons k ks ih =>
    intro ls hks hls
    obtain ⟨ls1, h1, hlen1, hwf1⟩ := hf ls k (hks k (by simp)) hls
    obtain ⟨ls2, h2, hlen2, hwf2⟩ :=
      ih ls1 (fun j hj => by rw [hlen1]; exact hks j (by simp [hj])) hwf1
    refine ⟨ls2, ?_, by rw [hlen2, hlen1], hwf2⟩
    simp only [Vx.seqOption, h1]
    exact h2

/-- Indices of the `[1:-1]` slice are valid. -/
theorem middleIdx_lt (len k : ℕ) (hk : k ∈ Vx.middleIdx len) : k < len := by
  unfold Vx.middleIdx at hk
  rw [List.mem_range'_1] at hk
  omega

/-- Indices of the `[1:]` slice are valid. -/
theorem tailIdx_lt (len k : ℕ) (hk : k ∈ Vx.tailIdx len) : k < len := by
  unfold Vx.tailIdx at hk
  rw [List.mem_range'_1] at hk
  omega

/-- `Net.Predict` on a well-formed net with input data at least `n` wide
succeeds, returns a length-`n` output, and preserves well-formedness, the
layer count and the metric. -/
theorem NetPredict_ok (n : ℕ) (net : Vx.Net) (hwf : Vx.NetWF n net)
    (data : Vx.Vec) (hd : n ≤ data.length) :
    ∃ out net', Vx.Net.Predict net data = some (out, net') ∧
      out.length = n ∧ Vx.NetWF n net' ∧
      net'.layers.length = net.layers.length ∧ net'.metric = net.metric := by
  obtain ⟨hne, hls⟩ := hwf
  obtain ⟨l0, rest, hcons⟩ := List.exists_cons_of_ne_nil hne
  have hlen0 : net.layers.length = (Vx.Layer.ClampPre l0 data :: rest).length := by
    rw [hcons]
    simp
  have hls0 : ∀ lx ∈ Vx.Layer.ClampPre l0 data :: rest,
      Vx.LayerWF (Vx.Layer.ClampPre l0 data :: rest).length n lx := by
    intro lx hlx
    rw [← hlen0]
    rcases List.mem_cons.mp hlx with h | h
    · rw [h]
      exact LayerWF_ClampPre (hls l0 (by rw [hcons]; simp)) hd
    · exact hls lx (by rw [hcons]; simp [h])
  obtain ⟨ls1, hmid, hlen1, hwf1⟩ :=
    seqOption_ok n Vx.predictAt (fun ls k hk h => predictAt_ok n ls k hk h)
      (Vx.middleIdx (Vx.Layer.ClampPre l0 data :: rest).length)
      (Vx.Layer.ClampPre l0 data :: rest)
      (fun k hk => middleIdx_lt _ k hk) hls0
  have hpos : 0 < ls1.length := by
    rw [hlen1]
    simp
  have hklt : ls1.length - 1 < ls1.length := by omega
  have hwflast := hwf1 _ (List.getElem_mem hklt)
  obtain ⟨pl, hpl, hpll⟩ :=
    PredictL_ok n ls1 ls1[ls1.length - 1] hwflast
      (fun lx hlx => (hwf1 lx hlx).2.1)
  set lF : Vx.Layer := { ls1[ls1.length - 1] with preLin := pl, preAct := ls1[ls1.length - 1].act pl } with hlF
  have hpredict : Vx.Net.Predict net data =
      some (lF.preAct, { net with layers := ls1.set (ls1.length - 1) lF }) := by
    unfold Vx.Net.Predict
    rw [hcons]
    simp only [List.set_cons_zero, List.getElem?_eq_getElem hklt, hmid, hpl]
  refine ⟨_, _, hpredict, ?_, ?_, ?_, rfl⟩
  · exact (hwflast.2.2.2.2.1 pl).trans hpll
  · constructor
    · apply List.ne_nil_of_length_pos
      simp only [List.length_set]
      omega
    · intro lx hlx
      simp only [List.length_set]
      rcases List.mem_or_eq_of_mem_set hlx with h | h
      · exact hwf1 _ h
      · rw [h]
        exact LayerWF_update_pre hwflast hpll
  · simp only [List.length_set]
    rw [hlen1, ← hlen0]

/-- `Net.Observe` on a well-formed net with both clamp vectors at least
`n` wide succeeds and preserves well-formedness, the layer count and the
metric. -/
theorem NetObserve_ok (n : ℕ) (net : Vx.Net) (hwf : Vx.NetWF n net)
    (inD outD : Vx.Vec) (hinl : n ≤ inD.length) (houtl : n ≤ outD.length) :
    ∃ net', Vx.Net.Observe net inD outD = some net' ∧ Vx.NetWF n net' ∧
      net'.layers.length = net.layers.length ∧ net'.metric = net.metric := by
  obtain ⟨hne, hls⟩ := hwf
  obtain ⟨l0, rest, hcons⟩ := List.exists_cons_of_ne_nil hne
  obtain ⟨lsA, mu⟩ := net
  simp only at hcons hls ⊢
  subst hcons
  unfold Vx.Net.Observe
  dsimp only
  simp only [List.set_cons_zero, List.length_cons, Nat.add_sub_cancel]
  have hCwf : ∀ lx ∈ Vx.Layer.ClampObs l0 inD :: rest,
      Vx.LayerWF (Vx.Layer.ClampObs l0 inD :: rest).length n lx := by
    intro lx hlx
    have hlen : (Vx.Layer.ClampObs l0 inD :: rest).length = (l0 :: rest).length := by
      simp
    rw [hlen]
    rcases List.mem_cons.mp hlx with h | h
    · rw [h]
      exact LayerWF_ClampObs (hls l0 (by simp)) hinl
    · exact hls lx (by simp [h])
  have hk : rest.length < (Vx.Layer.ClampObs l0 inD :: rest).length := by simp
  rw [List.getElem?_eq_getElem hk]
  have hwflk := hCwf _ (List.getElem_mem hk)
  have hLS1wf : ∀ lx ∈ (Vx.Layer.ClampObs l0 inD :: rest).set rest.length
      ((Vx.Layer.ClampObs l0 inD :: rest)[rest.length].ClampObs outD),
      Vx.LayerWF ((Vx.Layer.ClampObs l0 inD :: rest).set rest.length
        ((Vx.Layer.ClampObs l0 inD :: rest)[rest.length].ClampObs outD)).length n lx := by
    intro lx hlx
    rw [List.length_set]
    rcases List.mem_or_eq_of_mem_set hlx with h | h
    · exact hCwf _ h
    · rw [h]
      exact LayerWF_ClampObs hwflk houtl
  obtain ⟨ls2, hmid, hlen2, hwf2⟩ :=
    seqOption_ok n Vx.observeAt (fun ls k hk h => observeAt_ok n ls k hk h)
      (Vx.middleIdx ((Vx.Layer.ClampObs l0 inD :: rest).set rest.length
        ((Vx.Layer.ClampObs l0 inD :: rest)[rest.length].ClampObs outD)).length)
      ((Vx.Layer.ClampObs l0 inD :: rest).set rest.length
        ((Vx.Layer.ClampObs l0 inD :: rest)[rest.length].ClampObs outD))
      (fun k hk => middleIdx_lt _ k hk) hLS1wf
  dsimp only
  rw [hmid]
  refine ⟨{ layers := ls2, metric := mu }, rfl, ?_, ?_, rfl⟩
  · constructor
    · apply List.ne_nil_of_length_pos
      rw [hlen2, List.length_set]
      simp
    · exact hwf2
  · rw [hlen2, List.length_set]
    simp

/-- Iterated `Net.Predict` succeeds on a well-formed net; after at least
one iteration the carried last-result binding holds a length-`n` vector. -/
theorem PredictN_ok (n : ℕ) (d : Vx.Vec) (hd : n ≤ d.length) :
    ∀ (count : ℕ) (net : Vx.Net) (last : Option Vx.Vec), Vx.NetWF n net →
    ∃ net' last', Vx.PredictN d count (net, last) = some (net', last') ∧
      Vx.NetWF n net' ∧ net'.layers.length = net.layers.length ∧
      net'.metric = net.metric ∧
      ((∃ v, last' = some v ∧ v.length = n) ∨ (count = 0 ∧ last' = last)) := by
  intro count
  induction count with
  | zero =>
    intro net last hwf
    exact ⟨net, last, rfl, hwf, rfl, rfl, Or.inr ⟨rfl, rfl⟩⟩
  | succ k ih =>
    intro net last hwf
    obtain ⟨out, net1, hstep, houtl, hwf1, hlen1, hmetric1⟩ :=
      NetPredict_ok n net hwf d hd
    obtain ⟨net', last', hrest, hwf', hlen', hmetric', hlast'⟩ :=
      ih net1 (some out) hwf1
    refine ⟨net', last', ?_, hwf', by rw [hlen', hlen1], by rw [hmetric', hmetric1], ?_⟩
    · simp only [Vx.PredictN, hstep]
      exact hrest
    · rcases hlast' with h | ⟨hk0, hl⟩
      · exact Or.inl h
      · exact Or.inl ⟨out, hl, houtl⟩

/-- Iterated `Net.Observe` succeeds on a well-formed net. -/
theorem ObserveN_ok (n : ℕ) (inD outD : Vx.Vec)
    (hinl : n ≤ inD.length) (houtl : n ≤ outD.length) :
    ∀ (count : ℕ) (net : Vx.Net), Vx.NetWF n net →
    ∃ net', Vx.ObserveN inD outD count net = some net' ∧
      Vx.NetWF n net' ∧ net'.layers.length = net.layers.length ∧
      net'.metric = net.metric := by
  intro count
  induction count with
  | zero => exact fun net hwf => ⟨net, rfl, hwf, rfl, rfl⟩
  | succ k ih =>
    intro net hwf
    obtain ⟨net1, hstep, hwf1, hlen1, hmetric1⟩ :=
      NetObserve_ok n net hwf inD outD hinl houtl
    obtain ⟨net', hrest, hwf', hlen', hmetric'⟩ := ih net1 hwf1
    refine ⟨net', ?_, hwf', by rw [hlen', hlen1], by rw [hmetric', hmetric1]⟩
    simp only [Vx.ObserveN, hstep]
    exact hrest

/-- The `Net.Infer` sample loop succeeds on a well-formed net when every
sample has width exactly `n` and at least one timestep is run. -/
theorem inferGo_ok (n : ℕ) (nT : ℕ) (hnT : 1 ≤ nT) :
    ∀ (ds : List Vx.Vec) (net : Vx.Net) (last : Option Vx.Vec),
    Vx.NetWF n net → (∀ d ∈ ds, d.length = n) →
    ∃ outs net' last', Vx.inferGo nT ds (net, last) = some (outs, net', last') ∧
      Vx.NetWF n net' ∧ net'.layers.length = net.layers.length ∧
      net'.metric = net.metric := by
  intro ds
  induction ds with
  | nil => exact fun net last hwf _ => ⟨[], net, last, rfl, hwf, rfl, rfl⟩
  | cons d ds ih =>
    intro net last hwf hds
    have hdn : d.length = n := hds d (by simp)
    obtain ⟨net1, last1, hstep, hwf1, hlen1, hmetric1, hlast1⟩ :=
      PredictN_ok n d (le_of_eq hdn.symm) nT net last hwf
    rcases hlast1 with ⟨v, hv, hvl⟩ | ⟨hk0, _⟩
    · obtain ⟨outs, net', last', hrest, hwf', hlen', hmetric'⟩ :=
        ih net1 last1 hwf1 (fun x hx => hds x (by simp [hx]))
      rw [hv] at hrest
      refine ⟨v :: outs, net', last', ?_, hwf', by rw [hlen', hlen1], by rw [hmetric', hmetric1]⟩
      simp only [Vx.inferGo, hstep, hv]
      rw [npWrite_eq _ _ (by simp [hvl, hdn])]
      simp only [hrest]
    · omega

/-- `Net.Evaluate` succeeds on a well-formed net, returning the metric of
the inferred outputs and a still well-formed net. -/
theorem NetEvaluate_ok (n : ℕ) (net : Vx.Net) (inData outData : List Vx.Vec)
    (nT : ℕ) (hnT : 1 ≤ nT) (hwf : Vx.NetWF n net)
    (hin : ∀ d ∈ inData, d.length = n) :
    ∃ r net', Vx.Net.Evaluate net inData outData nT = some (r, net') ∧
      Vx.NetWF n net' ∧ net'.layers.length = net.layers.length ∧
      net'.metric = net.metric := by
  obtain ⟨outs, net', last', hgo, hwf', hlen', hmetric'⟩ :=
    inferGo_ok n nT hnT inData net none hwf hin
  refine ⟨net'.metric outs outData, net', ?_, hwf', hlen', hmetric'⟩
  unfold Vx.Net.Evaluate Vx.Net.Infer
  simp only [hgo]

/-- The predict-into-observe hand-off at a valid index succeeds and
preserves length and well-formedness. -/
theorem preToObsAt_ok (n : ℕ) (ls : List Vx.Layer) (k : ℕ) (hk : k < ls.length)
    (hls : ∀ lx ∈ ls, Vx.LayerWF ls.length n lx) :
    ∃ ls', Vx.preToObsAt ls k = some ls' ∧ ls'.length = ls.length ∧
      ∀ lx ∈ ls', Vx.LayerWF ls'.length n lx := by
  have hwf := hls _ (List.getElem_mem hk)
  obtain ⟨h1, h2, h3, h4, hact, hms, hne⟩ := hwf
  refine ⟨ls.set k { ls[k] with obsLin := ls[k].preLin, obsAct := ls[k].preAct },
    ?_, by simp, ?_⟩
  · simp only [Vx.preToObsAt, List.getElem?_eq_getElem hk,
      npWrite_eq ls[k].obsLin ls[k].preLin (by rw [h1, h3]),
      npWrite_eq ls[k].obsAct ls[k].preAct (by rw [h2, h4])]
  · intro lx hlx
    rw [List.length_set]
    rcases List.mem_or_eq_of_mem_set hlx with h | h
    · exact hls _ h
    · rw [h]
      exact ⟨h1, h2, h1, h2, hact, hms, hne⟩

/-- The observe-into-predict copy-back at a valid index succeeds and
preserves length and well-formedness. -/
theorem obsToPreAt_ok (n : ℕ) (ls : List Vx.Layer) (k : ℕ) (hk : k < ls.length)
    (hls : ∀ lx ∈ ls, Vx.LayerWF ls.length n lx) :
    ∃ ls', Vx.obsToPreAt ls k = some ls' ∧ ls'.length = ls.length ∧
      ∀ lx ∈ ls', Vx.LayerWF ls'.length n lx := by
  have hwf := hls _ (List.getElem_mem hk)
  obtain ⟨h1, h2, h3, h4, hact, hms, hne⟩ := hwf
  refine ⟨ls.set k { ls[k] with preLin := ls[k].obsLin, preAct := ls[k].obsAct },
    ?_, by simp, ?_⟩
  · simp only [Vx.obsToPreAt, List.getElem?_eq_getElem hk,
      npWrite_eq ls[k].preLin ls[k].obsLin (by rw [h3, h1]),
      npWrite_eq ls[k].preAct ls[k].obsAct (by rw [h4, h2])]
  · intro lx hlx
    rw [List.length_set]
    rcases List.mem_or_eq_of_mem_set hlx with h | h
    · exact hls _ h
    · rw [h]
      exact ⟨h3, h4, h3, h4, hact, hms, hne⟩

/-- `copyPreToObs` succeeds on a well-formed net and preserves
well-formedness, the layer count and the metric. -/
theorem copyPreToObs_ok (n : ℕ) (net : Vx.Net) (hwf : Vx.NetWF n net) :
    ∃ net', Vx.copyPreToObs net = some net' ∧ Vx.NetWF n net' ∧
      net'.layers.length = net.layers.length ∧ net'.metric = net.metric := by
  obtain ⟨hne, hls⟩ := hwf
  obtain ⟨ls', hseq, hlen', hwf'⟩ :=
    seqOption_ok n Vx.preToObsAt (fun ls k hk h => preToObsAt_ok n ls k hk h)
      (Vx.tailIdx net.layers.length) net.layers
      (fun k hk => tailIdx_lt _ k hk) hls
  refine ⟨{ net with layers := ls' }, ?_, ⟨?_, hwf'⟩, hlen', rfl⟩
  · unfold Vx.copyPreToObs
    simp only [hseq]
  · apply List.ne_nil_of_length_pos
    rw [hlen']
    exact List.length_pos.mpr hne

/-- `copyObsToPre` succeeds on a well-formed net and preserves
well-formedness, the layer count and the metric. -/
theorem copyObsToPre_ok (n : ℕ) (net : Vx.Net) (hwf : Vx.NetWF n net) :
    ∃ net', Vx.copyObsToPre net = some net' ∧ Vx.NetWF n net' ∧
      net'.layers.length = net.layers.length ∧ net'.metric = net.metric := by
  obtain ⟨hne, hls⟩ := hwf
  obtain ⟨ls', hseq, hlen', hwf'⟩ :=
    seqOption_ok n Vx.obsToPreAt (fun ls k hk h => obsToPreAt_ok n ls k hk h)
      (Vx.tailIdx net.layers.length) net.layers
      (fun k hk => tailIdx_lt _ k hk) hls
  refine ⟨{ net with layers := ls' }, ?_, ⟨?_, hwf'⟩, hlen', rfl⟩
  · unfold Vx.copyObsToPre
    simp only [hseq]
  · apply List.ne_nil_of_length_pos
    rw [hlen']
    exact List.length_pos.mpr hne

/-- `Layer.Learn` succeeds on a well-formed layer, preserving
well-formedness; the layer's activation state is untouched. -/
theorem LearnL_ok (rules : Vx.RuleT) (n : ℕ) (ls : List Vx.Layer)
    (l : Vx.Layer) (hl : Vx.LayerWF ls.length n l) :
    ∃ l', Vx.Layer.LearnL rules ls l = some l' ∧ Vx.LayerWF ls.length n l' := by
  obtain ⟨h1, h2, h3, h4, hact, hms, hne⟩ := hl
  by_cases hcond : (l.isInput || l.freeze) = true
  · refine ⟨l, ?_, h1, h2, h3, h4, hact, hms, hne⟩
    unfold Vx.Layer.LearnL
    rw [if_pos hcond]
  · have hIF : l.isInput = false ∧ l.freeze = false := by
      simpa only [Bool.or_eq_true, not_or, Bool.not_eq_true] using hcond
    obtain ⟨m, rest, hm⟩ := List.exists_cons_of_ne_nil (hne hIF.1 hIF.2)
    refine ⟨{ l with meshes := Vx.Mesh.Update m (rules l.rule (ls.getD m.inLayer default) l) :: rest }, ?_, ?_⟩
    · unfold Vx.Layer.LearnL
      rw [if_neg hcond, hm]
    · refine ⟨h1, h2, h3, h4, hact, ?_, by simp⟩
      intro mx hmx
      rcases List.mem_cons.mp hmx with h | h
      · rw [h]
        exact MeshWF_Update (hms m (by rw [hm]; simp)) _
      · exact hms mx (by rw [hm]; simp [h])

/-- The per-layer learn pass at a valid index succeeds and preserves
length and well-formedness. -/
theorem learnAt_ok (rules : Vx.RuleT) (n : ℕ) (ls : List Vx.Layer) (k : ℕ)
    (hk : k < ls.length) (hls : ∀ lx ∈ ls, Vx.LayerWF ls.length n lx) :
    ∃ ls', Vx.learnAt rules ls k = some ls' ∧ ls'.length = ls.length ∧
      ∀ lx ∈ ls', Vx.LayerWF ls'.length n lx := by
  obtain ⟨l', hl', hwf'⟩ := LearnL_ok rules n ls ls[k] (hls _ (List.getElem_mem hk))
  refine ⟨ls.set k l', ?_, by simp, ?_⟩
  · unfold Vx.learnAt
    rw [List.getElem?_eq_getElem hk]
    simp only [hl']
  · intro lx hlx
    rw [List.length_set]
    rcases List.mem_or_eq_of_mem_set hlx with h | h
    · exact hls _ h
    · rw [h]
      exact hwf'

/-- `learnAll` succeeds on a well-formed net and preserves
well-formedness, the layer count and the metric. -/
theorem learnAll_ok (rules : Vx.RuleT) (n : ℕ) (net : Vx.Net)
    (hwf : Vx.NetWF n net) :
    ∃ net', Vx.learnAll rules net = some net' ∧ Vx.NetWF n net' ∧
      net'.layers.length = net.layers.length ∧ net'.metric = net.metric := by
  obtain ⟨hne, hls⟩ := hwf
  obtain ⟨ls', hseq, hlen', hwf'⟩ :=
    seqOption_ok n (Vx.learnAt rules) (fun ls k hk h => learnAt_ok rules n ls k hk h)
      (List.range net.layers.length) net.layers
      (fun k hk => List.mem_range.mp hk) hls
  refine ⟨{ net with layers := ls' }, ?_, ⟨?_, hwf'⟩, hlen', rfl⟩
  · unfold Vx.learnAll
    simp only [hseq]
  · apply List.ne_nil_of_length_pos
    rw [hlen']
    exact List.length_pos.mpr hne

/-- `Net.resetActivity` preserves well-formedness, the layer count and
the metric. -/
theorem NetWF_reset (n : ℕ) (net : Vx.Net) (hwf : Vx.NetWF n net) :
    Vx.NetWF n (Vx.Net.resetActivity net) ∧
    (Vx.Net.resetActivity net).layers.length = net.layers.length ∧
    (Vx.Net.resetActivity net).metric = net.metric := by
  obtain ⟨hne, hls⟩ := hwf
  refine ⟨⟨?_, ?_⟩, by simp [Vx.Net.resetActivity], rfl⟩
  · simp only [Vx.Net.resetActivity]
    simpa using hne
  · intro lx hlx
    simp only [Vx.Net.resetActivity, List.length_map] at hlx ⊢
    obtain ⟨ly, hly, rfl⟩ := List.mem_map.mp hlx
    exact LayerWF_reset (hls ly hly)

/-- One sample of the `Net.Learn` epoch loop succeeds on a well-formed
state, stepping the sample index and preserving the shape of the state. -/
theorem trainSample_ok (rules : Vx.RuleT) (reset : Bool) (nT n : ℕ)
    (hnT : 1 ≤ nT) (s : Vx.TrainState) (p : Vx.Vec × Vx.Vec)
    (hwf : Vx.NetWF n s.net) (hp1 : p.1.length = n) (hp2 : n ≤ p.2.length)
    (her : ∀ row ∈ s.er, row.length = n) (hidx : s.idx < s.er.length) :
    ∃ s', Vx.trainSample rules reset nT s p = some s' ∧
      Vx.NetWF n s'.net ∧ s'.net.layers.length = s.net.layers.length ∧
      s'.net.metric = s.net.metric ∧ s'.er.length = s.er.length ∧
      (∀ row ∈ s'.er, row.length = n) ∧ s'.idx = s.idx + 1 := by
  have hnet0 : ∃ net0, (if reset then Vx.Net.resetActivity s.net else s.net) = net0 ∧
      Vx.NetWF n net0 ∧ net0.layers.length = s.net.layers.length ∧
      net0.metric = s.net.metric := by
    by_cases hr : reset
    · obtain ⟨hw, hl, hm⟩ := NetWF_reset n s.net hwf
      exact ⟨_, by rw [if_pos hr], hw, hl, hm⟩
    · exact ⟨s.net, by rw [if_neg hr], hwf, rfl, rfl⟩
  obtain ⟨net0, hif, hwf0, hlen0, hmet0⟩ := hnet0
  obtain ⟨net1, last1, hPred, hwf1, hlen1, hmet1, hlast⟩ :=
    PredictN_ok n p.1 (le_of_eq hp1.symm) nT net0 s.last hwf0
  rcases hlast with ⟨v, hv, hvl⟩ | ⟨hk0, _⟩
  · have hrow : s.er[s.idx]? = some s.er[s.idx] := List.getElem?_eq_getElem hidx
    have hrowl : s.er[s.idx].length = n := her _ (List.getElem_mem hidx)
    have hwrite : Vx.npWrite s.er[s.idx] v = some v :=
      npWrite_eq _ _ (by rw [hvl, hrowl])
    obtain ⟨net2, hcopy1, hwf2, hlen2, hmet2⟩ := copyPreToObs_ok n net1 hwf1
    obtain ⟨net3, hobs, hwf3, hlen3, hmet3⟩ :=
      ObserveN_ok n p.1 p.2 (le_of_eq hp1.symm) hp2 nT net2 hwf2
    obtain ⟨net4, hlearn, hwf4, hlen4, hmet4⟩ := learnAll_ok rules n net3 hwf3
    obtain ⟨net5, hcopy2, hwf5, hlen5, hmet5⟩ := copyObsToPre_ok n net4 hwf4
    refine ⟨{ net := net5, er := s.er.set s.idx v, last := some v, idx := s.idx + 1 },
      ?_, hwf5, by rw [hlen5, hlen4, hlen3, hlen2, hlen1, hlen0],
      by rw [hmet5, hmet4, hmet3, hmet2, hmet1, hmet0], by simp, ?_, rfl⟩
    · unfold Vx.trainSample
      dsimp only
      rw [hif]
      simp only [hPred, hv, hrow, hwrite, hcopy1, hobs, hlearn, hcopy2]
    · intro row hrow'
      rcases List.mem_or_eq_of_mem_set hrow' with h | h
      · exact her _ h
      · rw [h]
        exact hvl
  · omega

/-- The zipped per-epoch sample loop succeeds while the sample index
stays within `epochResults`. -/
theorem sampleSeq_ok (rules : Vx.RuleT) (reset : Bool) (nT n : ℕ)
    (hnT : 1 ≤ nT) :
    ∀ (ps : List (Vx.Vec × Vx.Vec)) (s : Vx.TrainState),
    Vx.NetWF n s.net → (∀ row ∈ s.er, row.length = n) →
    (∀ p ∈ ps, p.1.length = n ∧ n ≤ p.2.length) →
    s.idx + ps.length ≤ s.er.length →
    ∃ s', Vx.sampleSeq rules reset nT ps s = some s' ∧
      Vx.NetWF n s'.net ∧ s'.net.layers.length = s.net.layers.length ∧
      s'.net.metric = s.net.metric ∧ s'.er.length = s.er.length ∧
      (∀ row ∈ s'.er, row.length = n) := by
  intro ps
  induction ps with
  | nil =>
    intro s hwf her _ _
    exact ⟨s, rfl, hwf, rfl, rfl, rfl, her⟩
  | cons p ps ih =>
    intro s hwf her hps hbound
    obtain ⟨s1, hstep, hwf1, hlen1, hmet1, herlen1, her1, hidx1⟩ :=
      trainSample_ok rules reset nT n hnT s p hwf (hps p (by simp)).1
        (hps p (by simp)).2 her (by simp only [List.length_cons] at hbound; omega)
    obtain ⟨s', hrest, hwf', hlen', hmet', herlen', her'⟩ :=
      ih s1 hwf1 her1 (fun q hq => hps q (by simp [hq]))
        (by rw [hidx1, herlen1]; simp only [List.length_cons] at hbound; omega)
    refine ⟨s', ?_, hwf', by rw [hlen', hlen1], by rw [hmet', hmet1],
      by rw [herlen', herlen1], her'⟩
    simp only [Vx.sampleSeq, hstep]
    exact hrest

/-- One epoch of `Net.Learn` succeeds on a well-formed state whose
`epochResults` matches the target count. -/
theorem runEpoch_ok (rules : Vx.RuleT) (reset : Bool) (nT n : ℕ)
    (inData outData : List Vx.Vec) (hnT : 1 ≤ nT)
    (hin : ∀ d ∈ inData, d.length = n) (hout : ∀ d ∈ outData, d.length = n)
    (s : Vx.TrainState) (hwf : Vx.NetWF n s.net)
    (her : ∀ row ∈ s.er, row.length = n)
    (herlen : s.er.length = outData.length) :
    ∃ s', Vx.runEpoch rules reset nT inData outData s = some s' ∧
      Vx.NetWF n s'.net ∧ s'.net.layers.length = s.net.layers.length ∧
      s'.net.metric = s.net.metric ∧ s'.er.length = s.er.length ∧
      (∀ row ∈ s'.er, row.length = n) := by
  unfold Vx.runEpoch
  refine sampleSeq_ok rules reset nT n hnT (inData.zip outData)
    { s with idx := 0 } hwf her ?_ ?_
  · intro p hp
    obtain ⟨a, b⟩ := p
    obtain ⟨ha, hb⟩ := List.of_mem_zip hp
    exact ⟨hin a ha, le_of_eq (hout b hb).symm⟩
  · simp only [List.length_zip]
    omega

/-- The epoch loop of `Net.Learn` succeeds, produces one metric value per
epoch, and its `i`-th value is the metric of the state reached after
`i+1` epochs. -/
theorem epochsLoop_ok (rules : Vx.RuleT) (reset : Bool) (nT n : ℕ)
    (inData outData : List Vx.Vec) (hnT : 1 ≤ nT)
    (hin : ∀ d ∈ inData, d.length = n) (hout : ∀ d ∈ outData, d.length = n) :
    ∀ (nE : ℕ) (s : Vx.TrainState), Vx.NetWF n s.net →
      (∀ row ∈ s.er, row.length = n) → s.er.length = outData.length →
      ∃ rs sF, Vx.epochsLoop rules reset nT inData outData nE s = some (rs, sF) ∧
        rs.length = nE ∧
        ∀ i, i < nE →
          ∃ si, Vx.epochIter rules reset nT inData outData (i+1) s = some si ∧
            rs[i]? = some (si.net.metric si.er outData) := by
  intro nE
  induction nE with
  | zero =>
    intro s hwf her herlen
    exact ⟨[], s, rfl, rfl, fun i hi => absurd hi (by omega)⟩
  | succ k ih =>
    intro s hwf her herlen
    obtain ⟨s1, hep, hwf1, hlen1, hmet1, herlen1, her1⟩ :=
      runEpoch_ok rules reset nT n inData outData hnT hin hout s hwf her herlen
    obtain ⟨rs, sF, hloop, hrslen, hrel⟩ := ih s1 hwf1 her1 (herlen1.trans herlen)
    refine ⟨s1.net.metric s1.er outData :: rs, sF, ?_, by simp [hrslen], ?_⟩
    · simp only [Vx.epochsLoop, hep, hloop]
    · intro i hi
      cases i with
      | zero =>
        refine ⟨s1, ?_, by simp⟩
        simp only [Vx.epochIter, hep]
      | succ j =>
        obtain ⟨si, hiter, hval⟩ := hrel j (by omega)
        refine ⟨si, ?_, by simpa using hval⟩
        simp only [Vx.epochIter, hep]
        exact hiter

/-- C6: on a well-formed net (uniform layer size `n`, input and target
samples of width `n`, at least one timestep per phase), `Net.Learn`
returns a metric series of length exactly `numEpochs + 1` whose first
element is the pre-training metric `Net.Evaluate` computed on the
untrained network before any weight update, and whose element `i+1` is
the configured metric computed over epoch `i`'s recorded predict-phase
outputs (`epochResults` of the state reached after `i+1` epochs) versus
the targets. -/
theorem C6_learn_metric_series (rules : Vx.RuleT) (net : Vx.Net)
    (inData outData : List Vx.Vec) (nT nE : ℕ) (reset : Bool) (n : ℕ)
    (hwf : Vx.NetWF n net) (hnT : 1 ≤ nT)
    (hin : ∀ d ∈ inData, d.length = n) (hout : ∀ d ∈ outData, d.length = n) :
    ∃ series netF r0 net1,
      Vx.Net.Learn rules net inData outData nT nE reset = some (series, netF) ∧
      Vx.Net.Evaluate net inData outData nT = some (r0, net1) ∧
      series.length = nE + 1 ∧
      series.head? = some r0 ∧
      ∀ i, i < nE → ∃ si : Vx.TrainState,
        Vx.epochIter rules reset nT inData outData (i+1)
          { net := net1,
            er := List.replicate outData.length (List.replicate n (0:ℝ)),
            last := none, idx := 0 } = some si ∧
        series[i+1]? = some (si.net.metric si.er outData) := by
  obtain ⟨r0, net1, hev, hwf1, hlen1, hmet1⟩ :=
    NetEvaluate_ok n net inData outData nT hnT hwf hin
  have hne1 : net1.layers ≠ [] := hwf1.1
  have hlast : net1.layers.getLast? = some (net1.layers.getLast hne1) :=
    List.getLast?_eq_getLast _ hne1
  have hll : (net1.layers.getLast hne1).preAct.length = n :=
    (hwf1.2 _ (List.getLast_mem hne1)).2.1
  have herw : List.replicate outData.length
      (List.replicate (net1.layers.getLast hne1).preAct.length (0:ℝ)) =
      List.replicate outData.length (List.replicate n (0:ℝ)) := by
    rw [hll]
  have her0len : ∀ row ∈ List.replicate outData.length
      (List.replicate (net1.layers.getLast hne1).preAct.length (0:ℝ)),
      row.length = n := by
    intro row hrow
    rw [List.eq_of_mem_replicate hrow]
    simp [hll]
  obtain ⟨rs, sF, hloop, hrslen, hrel⟩ :=
    epochsLoop_ok rules reset nT n inData outData hnT hin hout nE
      { net := net1,
        er := List.replicate outData.length
          (List.replicate (net1.layers.getLast hne1).preAct.length (0:ℝ)),
        last := none, idx := 0 }
      hwf1 her0len (by simp)
  refine ⟨r0 :: rs, sF.net, r0, net1, ?_, hev, by simp [hrslen], by simp, ?_⟩
  · unfold Vx.Net.Learn
    simp only [hev, hlast, hloop]
  · intro i hi
    obtain ⟨si, hiter, hval⟩ := hrel i hi
    rw [herw] at hiter
    exact ⟨si, hiter, by simpa using hval⟩

/-- The concrete two-layer net `netW` is well-formed at size 1. -/
theorem netW_wf : Vx.NetWF 1 Vx.netW := by
  constructor
  · simp [Vx.netW]
  · intro l hl
    have hlen : Vx.netW.layers.length = 2 := by simp [Vx.netW]
    rw [hlen]
    have hl2 : l = Vx.layIn ∨ l = Vx.layOut := by
      simpa [Vx.netW] using hl
    rcases hl2 with h | h
    · subst h
      refine ⟨rfl, rfl, rfl, rfl, fun v => rfl, ?_, ?_⟩
      · intro m hm
        simp [Vx.layIn] at hm
      · intro h _
        simp [Vx.layIn] at h
    · subst h
      refine ⟨rfl, rfl, rfl, rfl, fun v => rfl, ?_, ?_⟩
      · intro m hm
        have hm2 : m = Vx.mesh0 := by simpa [Vx.layOut, Vx.layIn] using hm
        subst hm2
        exact ⟨rfl, by norm_num [Vx.mesh0], rfl⟩
      · intro _ _
        simp [Vx.layOut, Vx.layIn]

/-- Witness for C6 at the concrete two-layer net, a single one-element
sample, one timestep and one epoch. -/
theorem C6_witness :
    (Vx.NetWF 1 Vx.netW ∧ (1:ℕ) ≤ 1 ∧
     (∀ d ∈ [[(1:ℝ)]], d.length = 1) ∧ (∀ d ∈ [[(1:ℝ)]], d.length = 1)) ∧
    (∃ series netF r0 net1,
      Vx.Net.Learn Vx.rules0 Vx.netW [[(1:ℝ)]] [[(1:ℝ)]] 1 1 false =
        some (series, netF) ∧
      Vx.Net.Evaluate Vx.netW [[(1:ℝ)]] [[(1:ℝ)]] 1 = some (r0, net1) ∧
      series.length = 1 + 1 ∧
      series.head? = some r0 ∧
      ∀ i, i < 1 → ∃ si : Vx.TrainState,
        Vx.epochIter Vx.rules0 false 1 [[(1:ℝ)]] [[(1:ℝ)]] (i+1)
          { net := net1,
            er := List.replicate ([[(1:ℝ)]] : List Vx.Vec).length
              (List.replicate 1 (0:ℝ)),
            last := none, idx := 0 } = some si ∧
        series[i+1]? = some (si.net.metric si.er [[(1:ℝ)]])) :=
  ⟨⟨netW_wf, le_refl 1, by simp, by simp⟩,
   C6_learn_metric_series Vx.rules0 Vx.netW [[(1:ℝ)]] [[(1:ℝ)]] 1 1 false 1
     netW_wf (le_refl 1) (by simp) (by simp)⟩
